import Mathlib

/-!
Verification of the projectile lifecycle and collision resolution engine of
the roguelite arcade-shooter repository.

The TypeScript sources are shallowly embedded: class fields become structure
fields, methods become pure functions threading the state, JavaScript `Map`s
become association lists (`List (String × Nat)`), JavaScript `Set`s become
`List String` used as sets, and floating-point coordinates become `ℚ`.
JavaScript string truthiness (`undefined` and `""` are both falsy) is modelled
by `Option String` together with the `optTruthy` test.  Array `push`/`pop`
pairs (LIFO) are modelled with the head of a Lean list playing the role of the
end of the JavaScript array: `push` is `cons`, `pop` takes the head.
-/

namespace Roguelite

/-- JavaScript truthiness for an optional string field: `undefined` and the
empty string are falsy, every other string is truthy. -/
def optTruthy (o : Option String) : Bool :=
  match o with
  | none => false
  | some s => s ≠ ""

/-- `Math.round` of JavaScript on our rational model of doubles: round half
toward positive infinity, which coincides with Mathlib's `round`
(`round x = ⌊x + 1/2⌋`). -/
def jsRound (q : ℚ) : ℤ := round q

/-- `Map.get` on an association list: the value recorded under `k`, if any. -/
def mapGet (g : List (String × Nat)) (k : String) : Option Nat :=
  match g with
  | [] => none
  | kv :: rest => if kv.1 = k then some kv.2 else mapGet rest k

/-- `Map.set` on an association list: record `v` under `k`, replacing any
previous binding (lookup and iteration see a single binding per key, as a
JavaScript `Map` does). -/
def mapSet (g : List (String × Nat)) (k : String) (v : Nat) : List (String × Nat) :=
  (k, v) :: g.filter (fun kv => kv.1 ≠ k)

@[simp]
theorem mapGet_nil (k : String) : mapGet [] k = none := rfl

theorem mapGet_cons (kv : String × Nat) (rest : List (String × Nat)) (k : String) :
    mapGet (kv :: rest) k = if kv.1 = k then some kv.2 else mapGet rest k := rfl

theorem mapGet_filter_ne (g : List (String × Nat)) (k k' : String) (h : k' ≠ k) :
    mapGet (g.filter (fun kv => kv.1 ≠ k)) k' = mapGet g k' := by
  induction g with
  | nil => rfl
  | cons kv rest ih =>
    rcases kv with ⟨a, b⟩
    by_cases hak : a = k
    · subst hak
      have h1 : List.filter (fun kv => kv.1 ≠ a) ((a, b) :: rest) =
          List.filter (fun kv => kv.1 ≠ a) rest := by
        simp [List.filter_cons]
      rw [h1, ih, mapGet_cons, if_neg (Ne.symm h)]
    · have h1 : List.filter (fun kv => kv.1 ≠ k) ((a, b) :: rest) =
          (a, b) :: List.filter (fun kv => kv.1 ≠ k) rest := by
        simp [List.filter_cons, hak]
      rw [h1, mapGet_cons, mapGet_cons]
      by_cases hk' : a = k'
      · simp [hk']
      · simp only [if_neg hk']
        exact ih

@[simp]
theorem mapGet_mapSet_self (g : List (String × Nat)) (k : String) (v : Nat) :
    mapGet (mapSet g k v) k = some v := by
  simp [mapSet, mapGet]

theorem mapGet_mapSet_ne (g : List (String × Nat)) (k k' : String) (v : Nat)
    (h : k' ≠ k) : mapGet (mapSet g k v) k' = mapGet g k' := by
  simp only [mapSet, mapGet_cons]
  rw [if_neg (by simpa using Ne.symm h)]
  exact mapGet_filter_ne g k k' h

/-- A key that is bound in the association list after `mapSet` was either the
written key or already bound. -/
theorem mapGet_mapSet_isSome (g : List (String × Nat)) (k k' : String) (v : Nat)
    (h : (mapGet (mapSet g k v) k').isSome) : k' = k ∨ (mapGet g k').isSome := by
  by_cases hk : k' = k
  · exact Or.inl hk
  · right
    rwa [mapGet_mapSet_ne g k k' v hk] at h

end Roguelite

namespace Roguelite

/-!
## HealthComponent (src/entities/components/HealthComponent.ts)

Hit points live in `Int` (a faithful model of the JavaScript numbers used by
the component for the integral damage/heal amounts of this game).
-/

/-- State of `HealthComponent`: the immutable `maxHp` and the current `hp`. -/
structure HealthComponent where
  maxHp : Int
  hp : Int
deriving Repr, DecidableEq

/-- The constructor `new HealthComponent(maxHp)`: starts at full health. -/
def HealthComponent.create (maxHp : Int) : HealthComponent :=
  { maxHp := maxHp, hp := maxHp }

/-- `isDead()`: true when hp has reached (or fallen below) zero. -/
def HealthComponent.isDead (h : HealthComponent) : Bool :=
  h.hp ≤ 0

/-- `takeDamage(amount)`: no-op when already dead, otherwise clamp at 0 via
`Math.max(0, hp - amount)`. -/
def HealthComponent.takeDamage (h : HealthComponent) (amount : Int) : HealthComponent :=
  if h.isDead then h
  else { h with hp := max 0 (h.hp - amount) }

/-- `heal(amount)`: clamp at `maxHp` via `Math.min(maxHp, hp + amount)`. -/
def HealthComponent.heal (h : HealthComponent) (amount : Int) : HealthComponent :=
  { h with hp := min h.maxHp (h.hp + amount) }

/-- One call in a call sequence against a `HealthComponent`. -/
inductive HealthOp where
  | damage (amount : Int)
  | heal (amount : Int)
deriving Repr, DecidableEq

/-- The amount carried by a health operation. -/
def HealthOp.amount : HealthOp → Int
  | .damage a => a
  | .heal a => a

/-- Apply one health operation. -/
def HealthComponent.applyOp (h : HealthComponent) : HealthOp → HealthComponent
  | .damage a => h.takeDamage a
  | .heal a => h.heal a

/-- Run a sequence of `takeDamage`/`heal` calls. -/
def HealthComponent.run (h : HealthComponent) (ops : List HealthOp) : HealthComponent :=
  ops.foldl HealthComponent.applyOp h

theorem HealthComponent.applyOp_bounds (h : HealthComponent) (op : HealthOp)
    (hmax : 0 ≤ op.amount) (hlo : 0 ≤ h.hp) (hhi : h.hp ≤ h.maxHp) :
    0 ≤ (h.applyOp op).hp ∧ (h.applyOp op).hp ≤ h.maxHp ∧
      (h.applyOp op).maxHp = h.maxHp := by
  cases op with
  | damage a =>
    simp only [HealthOp.amount] at hmax
    simp only [HealthComponent.applyOp, HealthComponent.takeDamage, HealthComponent.isDead]
    split
    · exact ⟨hlo, hhi, by trivial⟩
    · exact ⟨le_max_left 0 _, max_le (le_trans hlo hhi) (by omega), by trivial⟩
  | heal a =>
    simp only [HealthOp.amount] at hmax
    simp only [HealthComponent.applyOp, HealthComponent.heal]
    exact ⟨le_min (le_trans hlo hhi) (by omega), min_le_left _ _, by trivial⟩

theorem HealthComponent.run_bounds (ops : List HealthOp) (h : HealthComponent)
    (hops : ∀ op ∈ ops, 0 ≤ op.amount) (hlo : 0 ≤ h.hp) (hhi : h.hp ≤ h.maxHp) :
    0 ≤ (h.run ops).hp ∧ (h.run ops).hp ≤ (h.run ops).maxHp ∧
      (h.run ops).maxHp = h.maxHp := by
  induction ops generalizing h with
  | nil => exact ⟨hlo, hhi, rfl⟩
  | cons op rest ih =>
    have hop := hops op (List.mem_cons_self op rest)
    have hstep := HealthComponent.applyOp_bounds h op hop hlo hhi
    have hrest := ih (h.applyOp op) (fun o ho => hops o (List.mem_cons_of_mem op ho))
      hstep.1 (hstep.2.2 ▸ hstep.2.1)
    simp only [HealthComponent.run, List.foldl_cons] at *
    exact ⟨hrest.1, hrest.2.1, hrest.2.2.trans hstep.2.2⟩

/-- C10: every `HealthComponent` keeps `0 ≤ hp ≤ maxHp` under any sequence of
`takeDamage`/`heal` calls with non-negative amounts (`takeDamage` clamps at 0,
`heal` clamps at `maxHp`), and a `takeDamage` call on a component whose hp is
already 0 changes nothing. -/
theorem C10_health_invariant (maxHp : Int) (hmax : 0 ≤ maxHp) (ops : List HealthOp)
    (hops : ∀ op ∈ ops, 0 ≤ op.amount) :
    (0 ≤ ((HealthComponent.create maxHp).run ops).hp ∧
      ((HealthComponent.create maxHp).run ops).hp ≤ maxHp) ∧
    (∀ (h : HealthComponent) (a : Int), h.hp = 0 → h.takeDamage a = h) := by
  constructor
  · have h3 := HealthComponent.run_bounds ops (HealthComponent.create maxHp) hops
      (by simpa [HealthComponent.create] using hmax)
      (by simp [HealthComponent.create])
    have h4 : ((HealthComponent.create maxHp).run ops).maxHp = maxHp := h3.2.2
    have h5 := h3.2.1
    rw [h4] at h5
    exact ⟨h3.1, h5⟩
  · intro h a hzero
    simp [HealthComponent.takeDamage, HealthComponent.isDead, hzero]

/-- Witness for C10 at a concrete component and call sequence. -/
theorem C10_health_invariant_witness :
    (0 ≤ ((HealthComponent.create 10).run
        [.damage 3, .heal 20, .damage 100, .damage 5]).hp ∧
      ((HealthComponent.create 10).run
        [.damage 3, .heal 20, .damage 100, .damage 5]).hp ≤ 10) ∧
    (∀ (h : HealthComponent) (a : Int), h.hp = 0 → h.takeDamage a = h) :=
  C10_health_invariant 10 (by decide)
    [.damage 3, .heal 20, .damage 100, .damage 5] (by decide)

end Roguelite

namespace Roguelite

/-!
## Game objects and identifiers

`GameObject` models the untyped object references handed to the collision
layer: a Phaser `name` (always a string, default `""`), an optional `enemyId`,
world coordinates, and the capability flags probed by the duck-typing checks
of the collision service (`body !== undefined`, `typeof getDirection ===
"function"`, `rank !== undefined`, `typeof pursue === "function"`,
`typeof takeDamage === "function"`).
-/

structure GameObject where
  name : String
  enemyId : Option String
  x : ℚ
  y : ℚ
  hasBody : Bool := true
  hasGetDirection : Bool := false
  hasRank : Bool := false
  hasPursue : Bool := false
  hasTakeDamage : Bool := false
deriving Repr, DecidableEq

/-- `getEnemyIdentifier` of `PierceProjectile`/`ExplosiveProjectile` (and the
enemy component of `CollisionService.generateCollisionKey`): prefer a truthy
`enemyId`, then a non-empty `name`, then a rounded-position fallback. -/
def getEnemyIdentifier (e : GameObject) : String :=
  if optTruthy e.enemyId then e.enemyId.getD ""
  else if e.name ≠ "" then e.name
  else "enemy_" ++ toString (jsRound e.x) ++ "_" ++ toString (jsRound e.y)

/-- The projectile component of `generateCollisionKey` and of
`onProjectileReturn`: `projectile.name || proj_<round x>_<round y>`. -/
def projIdOf (p : GameObject) : String :=
  if p.name ≠ "" then p.name
  else "proj_" ++ toString (jsRound p.x) ++ "_" ++ toString (jsRound p.y)

/-- `CollisionService.generateCollisionKey` (fixed revision): the frame-gate
key `projId:enemyId` built from the two fallback chains. -/
def generateCollisionKey (p e : GameObject) : String :=
  projIdOf p ++ ":" ++ getEnemyIdentifier e

/-- The gate key of the earlier `CollisionService` revision
(src/services/CollisionService.ts): `projectile.name` and
`enemy.enemyId ?? enemy.name` (nullish coalescing: an empty-string `enemyId`
is used as is). -/
def gateKeyV1 (p e : GameObject) : String :=
  p.name ++ ":" ++ (match e.enemyId with | some i => i | none => e.name)

/-- Cardinal movement directions of projectiles. -/
inductive Direction where
  | up
  | down
  | left
  | right
deriving Repr, DecidableEq

/-!
## Projectile variant state

Each variant embeds the fields of the corresponding class that the collision
engine reads or writes.  The base-class part of `reset` (position, direction,
re-enabling the physics body) is inlined into each variant's `reset`.
-/

/-- State of a base `Projectile` (Normal variant). -/
structure NormalState where
  x : ℚ
  y : ℚ
  dir : Direction
  bodyEnabled : Bool
deriving Repr, DecidableEq

/-- `Projectile.reset(x, y, direction)`: position, direction and physics body
are re-initialised. -/
def NormalState.reset (s : NormalState) (x y : ℚ) (dir : Direction) : NormalState :=
  { s with x := x, y := y, dir := dir, bodyEnabled := true }

/-- State of a `PierceProjectile`. -/
structure PierceState where
  x : ℚ
  y : ℚ
  dir : Direction
  bodyEnabled : Bool
  /-- `hitGate`: enemyId to the last frame this projectile hit that enemy. -/
  hitGate : List (String × Nat)
  /-- `hitEnemies`: the unique enemy ids hit by this projectile. -/
  hitEnemies : List String
  maxPierceCount : Nat
  currentPierceCount : Nat
deriving Repr, DecidableEq

/-- `PierceProjectile.reset`: base reset plus clearing `hitGate`,
`hitEnemies` and `currentPierceCount` (the configured `maxPierceCount` is
readonly and survives). -/
def PierceState.reset (p : PierceState) (x y : ℚ) (dir : Direction) : PierceState :=
  { p with x := x, y := y, dir := dir, bodyEnabled := true,
           hitGate := [], hitEnemies := [], currentPierceCount := 0 }

/-- `PierceProjectile.shouldProcessHit`: block when the enemy was hit less
than 5 frames ago (a truthy recorded frame), otherwise record the current
frame and allow.  Returns the decision together with the updated state. -/
def PierceState.shouldProcessHit (p : PierceState) (enemyId : String)
    (currentFrame : Nat) : Bool × PierceState :=
  match mapGet p.hitGate enemyId with
  | some lastFrame =>
      if lastFrame ≠ 0 ∧ currentFrame - lastFrame < 5 then (false, p)
      else (true, { p with hitGate := mapSet p.hitGate enemyId currentFrame })
  | none => (true, { p with hitGate := mapSet p.hitGate enemyId currentFrame })

/-- `PierceProjectile.onHitEnemy`: gate per enemy, count distinct enemies,
and request destruction once `currentPierceCount` reaches `maxPierceCount`.
Returns the updated state and the should-destroy flag. -/
def PierceState.onHitEnemy (p : PierceState) (e : GameObject) (currentFrame : Nat) :
    PierceState × Bool :=
  let enemyId := getEnemyIdentifier e
  match p.shouldProcessHit enemyId currentFrame with
  | (false, p1) => (p1, false)
  | (true, p1) =>
      let p2 :=
        if enemyId ∈ p1.hitEnemies then p1
        else { p1 with hitEnemies := p1.hitEnemies ++ [enemyId],
                       currentPierceCount := p1.currentPierceCount + 1 }
      (p2, decide (p2.currentPierceCount ≥ p2.maxPierceCount))

/-- State of an `ExplosiveProjectile`
(src/factories revision, the one with the `damagedEnemies` dedup set). -/
structure ExplosiveState where
  x : ℚ
  y : ℚ
  dir : Direction
  bodyEnabled : Bool
  explosionRadius : ℚ
  hasExploded : Bool
  /-- `damagedEnemies`: enemy ids already damaged by this explosion. -/
  damagedEnemies : List String
deriving Repr, DecidableEq

/-- `ExplosiveProjectile.reset`: base reset plus clearing `hasExploded` and
`damagedEnemies` (the configured `explosionRadius` is readonly). -/
def ExplosiveState.reset (s : ExplosiveState) (x y : ℚ) (dir : Direction) : ExplosiveState :=
  { s with x := x, y := y, dir := dir, bodyEnabled := true,
           hasExploded := false, damagedEnemies := [] }

/-- The qualifying test of the area query, `distance(center, body) ≤ radius`,
stated on squares (equivalent for a non-negative radius; `ℚ` has no square
root).  The boundary is inclusive. -/
def inRadius (cx cy r x y : ℚ) : Bool :=
  decide ((x - cx) ^ 2 + (y - cy) ^ 2 ≤ r ^ 2)

/-- The external physics query `scene.physics.overlapCirc(x, y, radius)`.
Modelled from the spec: the Phaser implementation is library code outside the
repository; per the spec's Area Query contract it returns the damageable
bodies whose position lies within the radius, inclusive boundary. -/
def overlapCirc (cx cy r : ℚ) (world : List GameObject) : List GameObject :=
  world.filter (fun b => inRadius cx cy r b.x b.y)

/-- The body of the `forEach` in
`ExplosiveProjectile.damageEnemiesInRadius`: skip bodies without a
`takeDamage` capability, skip ids already in the damaged set, otherwise add
the id and apply the fixed explosive damage of 2. -/
def explosionFold (acc : List String × List (String × Nat)) (b : GameObject) :
    List String × List (String × Nat) :=
  if b.hasTakeDamage = false then acc
  else
    let id := getEnemyIdentifier b
    if id ∈ acc.1 then acc
    else (acc.1 ++ [id], acc.2 ++ [(id, 2)])

/-- `ExplosiveProjectile.damageEnemiesInRadius`: run the area query around
the projectile and fold the damage pass over its result, starting from the
instance's current `damagedEnemies` set.  Returns the updated state together
with the list of damage applications `(enemyId, amount)` of this pass. -/
def ExplosiveState.damageEnemiesInRadius (s : ExplosiveState) (world : List GameObject) :
    ExplosiveState × List (String × Nat) :=
  let bodies := overlapCirc s.x s.y s.explosionRadius world
  let r := bodies.foldl explosionFold (s.damagedEnemies, [])
  ({ s with damagedEnemies := r.1 }, r.2)

/-- `ExplosiveProjectile.explode`: disable the physics body, then resolve all
area damage in one pass (the visual effect and the audio event carry no
collision state). -/
def ExplosiveState.explode (s : ExplosiveState) (world : List GameObject) :
    ExplosiveState × List (String × Nat) :=
  ExplosiveState.damageEnemiesInRadius { s with bodyEnabled := false } world

/-- `ExplosiveProjectile.onHitEnemy`: on the first hit set `hasExploded` and
explode; always report `true` (destroy the projectile).  Returns the updated
state, the area-damage applications of this call, and the returned flag. -/
def ExplosiveState.onHitEnemy (s : ExplosiveState) (world : List GameObject) :
    ExplosiveState × List (String × Nat) × Bool :=
  if s.hasExploded then (s, [], true)
  else
    let r := ExplosiveState.explode { s with hasExploded := true } world
    (r.1, r.2, true)

end Roguelite

namespace Roguelite

/-!
## ProjectilePool (src/systems/ProjectilePool.ts)

One free list per variant; `pop`/`push` of the JavaScript arrays are the head
operations of the lists.  The `created`/`reused`/`active` statistics mirror
`this.stats`.
-/

/-- `WeaponType` of src/systems/WeaponSystem.ts. -/
inductive WeaponType where
  | Normal
  | Pierce
  | Explosive
deriving Repr, DecidableEq

/-- A projectile instance as stored by the pool, tagged by its class. -/
inductive PooledProjectile where
  | normal (s : NormalState)
  | pierce (s : PierceState)
  | explosive (s : ExplosiveState)
deriving Repr, DecidableEq

/-- `ProjectilePool.getProjectileType`, resolved by constructor. -/
def tagOf : PooledProjectile → WeaponType
  | .normal _ => .Normal
  | .pierce _ => .Pierce
  | .explosive _ => .Explosive

/-- `new Projectile(scene, 0, 0, "down")`. -/
def newNormal : NormalState :=
  { x := 0, y := 0, dir := .down, bodyEnabled := true }

/-- `new PierceProjectile(scene, 0, 0, "down", 3)`. -/
def newPierce : PierceState :=
  { x := 0, y := 0, dir := .down, bodyEnabled := true, hitGate := [],
    hitEnemies := [], maxPierceCount := 3, currentPierceCount := 0 }

/-- `new ExplosiveProjectile(scene, 0, 0, "down", 60)`. -/
def newExplosive : ExplosiveState :=
  { x := 0, y := 0, dir := .down, bodyEnabled := true, explosionRadius := 60,
    hasExploded := false, damagedEnemies := [] }

/-- Pool state: the three free lists and the per-variant statistics. -/
structure ProjectilePool where
  normalPool : List NormalState
  piercePool : List PierceState
  explosivePool : List ExplosiveState
  createdNormal : Nat
  createdPierce : Nat
  createdExplosive : Nat
  reusedNormal : Nat
  reusedPierce : Nat
  reusedExplosive : Nat
  activeNormal : Nat
  activePierce : Nat
  activeExplosive : Nat
deriving Repr, DecidableEq

/-- `getNormalProjectile`: pop the free list; on exhaustion construct a new
instance and count it in `stats.created` (overflow creation), otherwise count
a reuse.  The third component tells whether the instance was reused. -/
def ProjectilePool.getNormalProjectile (P : ProjectilePool) :
    NormalState × ProjectilePool × Bool :=
  match P.normalPool with
  | [] => (newNormal, { P with createdNormal := P.createdNormal + 1 }, false)
  | s :: rest =>
      (s, { P with normalPool := rest, reusedNormal := P.reusedNormal + 1 }, true)

/-- `getPierceProjectile`: same shape as the normal variant. -/
def ProjectilePool.getPierceProjectile (P : ProjectilePool) :
    PierceState × ProjectilePool × Bool :=
  match P.piercePool with
  | [] => (newPierce, { P with createdPierce := P.createdPierce + 1 }, false)
  | s :: rest =>
      (s, { P with piercePool := rest, reusedPierce := P.reusedPierce + 1 }, true)

/-- `getExplosiveProjectile`: same shape as the normal variant. -/
def ProjectilePool.getExplosiveProjectile (P : ProjectilePool) :
    ExplosiveState × ProjectilePool × Bool :=
  match P.explosivePool with
  | [] => (newExplosive, { P with createdExplosive := P.createdExplosive + 1 }, false)
  | s :: rest =>
      (s, { P with explosivePool := rest, reusedExplosive := P.reusedExplosive + 1 }, true)

/-- `ProjectilePool.getProjectile(type, x, y, direction)`: dispatch on the
weapon type, bump the active counter, then `reset` the instance with the
spawn parameters (activation and group insertion carry no collision state). -/
def ProjectilePool.getProjectile (t : WeaponType) (x y : ℚ) (dir : Direction)
    (P : ProjectilePool) : PooledProjectile × ProjectilePool × Bool :=
  match t with
  | .Pierce =>
      let r := P.getPierceProjectile
      (.pierce (r.1.reset x y dir),
        { r.2.1 with activePierce := r.2.1.activePierce + 1 }, r.2.2)
  | .Explosive =>
      let r := P.getExplosiveProjectile
      (.explosive (r.1.reset x y dir),
        { r.2.1 with activeExplosive := r.2.1.activeExplosive + 1 }, r.2.2)
  | .Normal =>
      let r := P.getNormalProjectile
      (.normal (r.1.reset x y dir),
        { r.2.1 with activeNormal := r.2.1.activeNormal + 1 }, r.2.2)

/-- `ProjectilePool.returnProjectile`: deactivate and push the instance back
onto the free list selected by its constructor, decrementing the active
counter. -/
def ProjectilePool.returnProjectile (P : ProjectilePool) :
    PooledProjectile → ProjectilePool
  | .normal s =>
      { P with normalPool := s :: P.normalPool, activeNormal := P.activeNormal - 1 }
  | .pierce s =>
      { P with piercePool := s :: P.piercePool, activePierce := P.activePierce - 1 }
  | .explosive s =>
      { P with explosivePool := s :: P.explosivePool,
               activeExplosive := P.activeExplosive - 1 }

/-- Number of free instances of a variant. -/
def freeCount (P : ProjectilePool) : WeaponType → Nat
  | .Normal => P.normalPool.length
  | .Pierce => P.piercePool.length
  | .Explosive => P.explosivePool.length

/-- The `created` statistic of a variant. -/
def createdStat (P : ProjectilePool) : WeaponType → Nat
  | .Normal => P.createdNormal
  | .Pierce => P.createdPierce
  | .Explosive => P.createdExplosive

/-- The `reused` statistic of a variant. -/
def reusedStat (P : ProjectilePool) : WeaponType → Nat
  | .Normal => P.reusedNormal
  | .Pierce => P.reusedPierce
  | .Explosive => P.reusedExplosive

/-- `k` consecutive acquisitions of one variant (one game tick firing `k`
shots).  Returns the acquired instances, the was-reused flags in acquisition
order, and the final pool. -/
def acquireN (t : WeaponType) (x y : ℚ) (dir : Direction) :
    Nat → ProjectilePool → List PooledProjectile × List Bool × ProjectilePool
  | 0, P => ([], [], P)
  | k + 1, P =>
      let r := ProjectilePool.getProjectile t x y dir P
      let rest := acquireN t x y dir k r.2.1
      (r.1 :: rest.1, r.2.2 :: rest.2.1, rest.2.2)

/-- Release a batch of instances back to the pool. -/
def releaseAll (l : List PooledProjectile) (P : ProjectilePool) : ProjectilePool :=
  l.foldl ProjectilePool.returnProjectile P

theorem getProjectile_spec (t : WeaponType) (x y : ℚ) (dir : Direction)
    (P : ProjectilePool) :
    tagOf (ProjectilePool.getProjectile t x y dir P).1 = t ∧
    freeCount (ProjectilePool.getProjectile t x y dir P).2.1 t = freeCount P t - 1 ∧
    createdStat (ProjectilePool.getProjectile t x y dir P).2.1 t =
      createdStat P t + (if freeCount P t = 0 then 1 else 0) ∧
    reusedStat (ProjectilePool.getProjectile t x y dir P).2.1 t =
      reusedStat P t + (if freeCount P t = 0 then 0 else 1) ∧
    (ProjectilePool.getProjectile t x y dir P).2.2 = decide (freeCount P t ≠ 0) := by
  cases t with
  | Normal =>
      cases h : P.normalPool with
      | nil =>
          simp [ProjectilePool.getProjectile, ProjectilePool.getNormalProjectile, h,
            tagOf, freeCount, createdStat, reusedStat]
      | cons s rest =>
          simp [ProjectilePool.getProjectile, ProjectilePool.getNormalProjectile, h,
            tagOf, freeCount, createdStat, reusedStat]
  | Pierce =>
      cases h : P.piercePool with
      | nil =>
          simp [ProjectilePool.getProjectile, ProjectilePool.getPierceProjectile, h,
            tagOf, freeCount, createdStat, reusedStat]
      | cons s rest =>
          simp [ProjectilePool.getProjectile, ProjectilePool.getPierceProjectile, h,
            tagOf, freeCount, createdStat, reusedStat]
  | Explosive =>
      cases h : P.explosivePool with
      | nil =>
          simp [ProjectilePool.getProjectile, ProjectilePool.getExplosiveProjectile, h,
            tagOf, freeCount, createdStat, reusedStat]
      | cons s rest =>
          simp [ProjectilePool.getProjectile, ProjectilePool.getExplosiveProjectile, h,
            tagOf, freeCount, createdStat, reusedStat]

theorem acquireN_spec (t : WeaponType) (x y : ℚ) (dir : Direction) (k : Nat) :
    ∀ P : ProjectilePool,
      (acquireN t x y dir k P).1.length = k ∧
      (∀ i ∈ (acquireN t x y dir k P).1, tagOf i = t) ∧
      (acquireN t x y dir k P).2.1 =
        List.replicate (min k (freeCount P t)) true ++
          List.replicate (k - freeCount P t) false ∧
      freeCount (acquireN t x y dir k P).2.2 t = freeCount P t - k ∧
      createdStat (acquireN t x y dir k P).2.2 t =
        createdStat P t + (k - freeCount P t) ∧
      reusedStat (acquireN t x y dir k P).2.2 t =
        reusedStat P t + min k (freeCount P t) := by
  induction k with
  | zero =>
      intro P
      simp [acquireN]
  | succ k ih =>
      intro P
      obtain ⟨htag, hfree, hcreated, hreused, hflag⟩ := getProjectile_spec t x y dir P
      obtain ⟨ihlen, ihtag, ihflags, ihfree, ihcreated, ihreused⟩ :=
        ih (ProjectilePool.getProjectile t x y dir P).2.1
      simp only [acquireN]
      refine ⟨by simpa using ihlen, ?_, ?_, ?_, ?_, ?_⟩
      · intro i hi
        rcases List.mem_cons.mp hi with h1 | h1
        · exact h1 ▸ htag
        · exact ihtag i h1
      · rw [ihflags, hflag, hfree]
        by_cases h0 : freeCount P t = 0
        · simp [h0, List.replicate_succ]
        · have hd : decide (freeCount P t ≠ 0) = true := by simp [h0]
          obtain ⟨m, hm⟩ := Nat.exists_eq_succ_of_ne_zero h0
          rw [hd, hm, Nat.succ_sub_one]
          rw [show min (k + 1) (Nat.succ m) = min k m + 1 from by omega]
          rw [show k + 1 - Nat.succ m = k - m from by omega]
          simp [List.replicate_succ]
      · rw [ihfree, hfree]
        omega
      · rw [ihcreated, hcreated]
        by_cases h0 : freeCount P t = 0
        · simp [h0]
          omega
        · simp [h0]
          omega
      · rw [ihreused, hreused, hfree]
        by_cases h0 : freeCount P t = 0
        · simp [h0]
        · simp [h0]
          omega

theorem freeCount_returnProjectile (P : ProjectilePool) (i : PooledProjectile)
    (t : WeaponType) (h : tagOf i = t) :
    freeCount (P.returnProjectile i) t = freeCount P t + 1 := by
  cases i <;> cases t <;>
    simp_all [ProjectilePool.returnProjectile, freeCount, tagOf]

theorem freeCount_releaseAll (l : List PooledProjectile) (P : ProjectilePool)
    (t : WeaponType) (h : ∀ i ∈ l, tagOf i = t) :
    freeCount (releaseAll l P) t = freeCount P t + l.length := by
  induction l generalizing P with
  | nil => simp [releaseAll]
  | cons i rest ih =>
      have h1 := h i (List.mem_cons_self i rest)
      have h2 := ih (P.returnProjectile i) (fun j hj => h j (List.mem_cons_of_mem i hj))
      simp only [releaseAll, List.foldl_cons] at *
      rw [h2, freeCount_returnProjectile P i t h1, List.length_cons]
      omega

/-- C9: against a pool whose free list for the requested variant holds `n`
instances, `k` acquisitions reuse pooled instances for the first
`min k n` shots and construct one overflow instance (counted in the
`created` statistic) for each of the remaining `k - n` shots, never blocking
or failing; all `k` returned instances can then be released back, after which
the free list holds `(n - k) + k` instances. -/
theorem C9_pool_acquire_release (t : WeaponType) (x y : ℚ) (dir : Direction)
    (P : ProjectilePool) (k n : Nat) (hn : freeCount P t = n) :
    (acquireN t x y dir k P).1.length = k ∧
    (acquireN t x y dir k P).2.1 =
      List.replicate (min k n) true ++ List.replicate (k - n) false ∧
    createdStat (acquireN t x y dir k P).2.2 t = createdStat P t + (k - n) ∧
    reusedStat (acquireN t x y dir k P).2.2 t = reusedStat P t + min k n ∧
    freeCount (releaseAll (acquireN t x y dir k P).1 (acquireN t x y dir k P).2.2) t =
      (n - k) + k := by
  obtain ⟨hlen, htag, hflags, hfree, hcreated, hreused⟩ := acquireN_spec t x y dir k P
  subst hn
  refine ⟨hlen, hflags, hcreated, hreused, ?_⟩
  rw [freeCount_releaseAll _ _ _ htag, hfree, hlen]

/-- Witness for C9: a pierce pool with 2 free instances served 3 acquisitions
in one tick — 2 reuses, 1 overflow creation, and all 3 instances released. -/
theorem C9_pool_acquire_release_witness :
    (acquireN .Pierce 5 7 .up 3
        { normalPool := [], piercePool := [newPierce, newPierce], explosivePool := [],
          createdNormal := 0, createdPierce := 2, createdExplosive := 0,
          reusedNormal := 0, reusedPierce := 0, reusedExplosive := 0,
          activeNormal := 0, activePierce := 0, activeExplosive := 0 }).1.length = 3 ∧
    (acquireN .Pierce 5 7 .up 3
        { normalPool := [], piercePool := [newPierce, newPierce], explosivePool := [],
          createdNormal := 0, createdPierce := 2, createdExplosive := 0,
          reusedNormal := 0, reusedPierce := 0, reusedExplosive := 0,
          activeNormal := 0, activePierce := 0, activeExplosive := 0 }).2.1 =
      List.replicate (min 3 2) true ++ List.replicate (3 - 2) false ∧
    createdStat (acquireN .Pierce 5 7 .up 3
        { normalPool := [], piercePool := [newPierce, newPierce], explosivePool := [],
          createdNormal := 0, createdPierce := 2, createdExplosive := 0,
          reusedNormal := 0, reusedPierce := 0, reusedExplosive := 0,
          activeNormal := 0, activePierce := 0, activeExplosive := 0 }).2.2 .Pierce =
      2 + (3 - 2) ∧
    reusedStat (acquireN .Pierce 5 7 .up 3
        { normalPool := [], piercePool := [newPierce, newPierce], explosivePool := [],
          createdNormal := 0, createdPierce := 2, createdExplosive := 0,
          reusedNormal := 0, reusedPierce := 0, reusedExplosive := 0,
          activeNormal := 0, activePierce := 0, activeExplosive := 0 }).2.2 .Pierce =
      0 + min 3 2 ∧
    freeCount (releaseAll (acquireN .Pierce 5 7 .up 3
        { normalPool := [], piercePool := [newPierce, newPierce], explosivePool := [],
          createdNormal := 0, createdPierce := 2, createdExplosive := 0,
          reusedNormal := 0, reusedPierce := 0, reusedExplosive := 0,
          activeNormal := 0, activePierce := 0, activeExplosive := 0 }).1
      (acquireN .Pierce 5 7 .up 3
        { normalPool := [], piercePool := [newPierce, newPierce], explosivePool := [],
          createdNormal := 0, createdPierce := 2, createdExplosive := 0,
          reusedNormal := 0, reusedPierce := 0, reusedExplosive := 0,
          activeNormal := 0, activePierce := 0, activeExplosive := 0 }).2.2) .Pierce =
      (2 - 3) + 3 :=
  C9_pool_acquire_release .Pierce 5 7 .up
    { normalPool := [], piercePool := [newPierce, newPierce], explosivePool := [],
      createdNormal := 0, createdPierce := 2, createdExplosive := 0,
      reusedNormal := 0, reusedPierce := 0, reusedExplosive := 0,
      activeNormal := 0, activePierce := 0, activeExplosive := 0 } 3 2 rfl

/-- C1: releasing a projectile to the pool and acquiring again (the pool pops
the released instance and calls its `reset`) yields an instance with no hit
bookkeeping from its previous life: an empty pierce hit set with a zero
pierce counter, and a cleared detonation flag with an empty damaged set. -/
theorem C1_pool_release_acquire_clean (P : ProjectilePool) (ps : PierceState)
    (es : ExplosiveState) (x y x2 y2 : ℚ) (d d2 : Direction) :
    ((ProjectilePool.getProjectile .Pierce x y d
        (P.returnProjectile (.pierce ps))).1 = .pierce (ps.reset x y d) ∧
      (ps.reset x y d).hitEnemies = [] ∧
      (ps.reset x y d).currentPierceCount = 0 ∧
      (ps.reset x y d).hitGate = []) ∧
    ((ProjectilePool.getProjectile .Explosive x2 y2 d2
        (P.returnProjectile (.explosive es))).1 = .explosive (es.reset x2 y2 d2) ∧
      (es.reset x2 y2 d2).hasExploded = false ∧
      (es.reset x2 y2 d2).damagedEnemies = []) := by
  refine ⟨⟨?_, rfl, rfl, rfl⟩, ⟨?_, rfl, rfl⟩⟩
  · rfl
  · rfl

end Roguelite

namespace Roguelite

/-!
## CollisionService (src/services/CollisionService.ts, earlier revision)

The service-level frame gate and the projectile-enemy handler.  The damage
log records each `takeDamage` application as `(enemyIdentifier, amount)`.
A JavaScript exception escaping the handler is modelled with `Except`.
-/

/-- Observable state of the collision service relevant to damage accounting:
the frame-gate map and the log of damage applications. -/
structure ServiceState where
  frameGate : List (String × Nat)
  damageLog : List (String × Nat)
deriving Repr, DecidableEq

/-- `shouldProcessCollision(key)`: block iff the key was already processed in
the current frame, otherwise record the current frame and allow.  Returns the
decision with the updated gate. -/
def shouldProcessCollision (gate : List (String × Nat)) (key : String) (frame : Nat) :
    Bool × List (String × Nat) :=
  if mapGet gate key = some frame then (false, gate)
  else (true, mapSet gate key frame)

/-- `identifyProjectileEnemy` of the earlier revision: duck-typing on
`body !== undefined` and `rank !== undefined`. -/
def identifyProjectileEnemyV1 (o1 o2 : GameObject) : Option (GameObject × GameObject) :=
  if o1.hasBody ∧ o2.hasRank then some (o1, o2)
  else if o2.hasBody ∧ o1.hasRank then some (o2, o1)
  else none

/-- `(projectile as any).onHitEnemy ? onHitEnemy(enemy) : true`: the base
`Projectile` has no `onHitEnemy`, so a Normal projectile always reports
destruction; the pierce and explosive overrides run their own logic.  Returns
the updated variant state, the area-damage applications performed inside the
call (explosive only), and the should-destroy flag. -/
def projOnHitEnemy (p : PooledProjectile) (e : GameObject) (frame : Nat)
    (world : List GameObject) : PooledProjectile × List (String × Nat) × Bool :=
  match p with
  | .normal s => (.normal s, [], true)
  | .pierce s =>
      let r := s.onHitEnemy e frame
      (.pierce r.1, [], r.2)
  | .explosive s =>
      let r := s.onHitEnemy world
      (.explosive r.1, r.2.1, r.2.2)

/-- An operand of an overlap callback: the untyped scene object together with
the projectile payload when the object is a projectile (`none` models an
object with no `onHitEnemy` method) and its active flag. -/
structure CollisionEntity where
  obj : GameObject
  payload : Option PooledProjectile
  active : Bool
deriving Repr, DecidableEq


/-- The projectile-side dispatch inside the handler:
`(projectile as any).onHitEnemy ? onHitEnemy(enemy) : true` on an operand
that may or may not carry a projectile payload. -/
def payloadOnHit (p : Option PooledProjectile) (e : GameObject) (frame : Nat)
    (world : List GameObject) :
    Option PooledProjectile × List (String × Nat) × Bool :=
  match p with
  | none => (none, [], true)
  | some q =>
      let r := projOnHitEnemy q e frame world
      (some r.1, r.2.1, r.2.2)

/-- The body of `handleProjectileEnemyCollision` after identification
(earlier revision): frame gate on `projName:enemyId`, the projectile decides
survival, then `enemy.takeDamage(eventData.damage)` is called unguarded — if
the enemy has no `takeDamage`, the call raises; otherwise damage 1 is applied
(after any explosive area pass) and the projectile is destroyed (returned to
the pool, `active := false`) when requested. -/
def handleV1Core (st : ServiceState) (pr en : CollisionEntity) (frame : Nat)
    (world : List GameObject) : Except String (ServiceState × CollisionEntity) :=
  match shouldProcessCollision st.frameGate (gateKeyV1 pr.obj en.obj) frame with
  | (false, _) => .ok (st, pr)
  | (true, gate1) =>
      if en.obj.hasTakeDamage then
        .ok ({ frameGate := gate1,
               damageLog := st.damageLog
                 ++ (payloadOnHit pr.payload en.obj frame world).2.1
                 ++ [(getEnemyIdentifier en.obj, 1)] },
             { pr with payload := (payloadOnHit pr.payload en.obj frame world).1,
                       active := pr.active
                         && !(payloadOnHit pr.payload en.obj frame world).2.2 })
      else .error "enemy.takeDamage is not a function"

/-- `handleProjectileEnemyCollision(obj1, obj2)` (earlier revision): identify
the operands by shape and run the core; an unclassifiable pair returns with
no state change. -/
def handleV1 (st : ServiceState) (a b : CollisionEntity) (frame : Nat)
    (world : List GameObject) :
    Except String (ServiceState × CollisionEntity × CollisionEntity) :=
  if a.obj.hasBody ∧ b.obj.hasRank then
    match handleV1Core st a b frame world with
    | .ok r => .ok (r.1, r.2, b)
    | .error m => .error m
  else if b.obj.hasBody ∧ a.obj.hasRank then
    match handleV1Core st b a frame world with
    | .ok r => .ok (r.1, a, r.2)
    | .error m => .error m
  else .ok (st, a, b)

/-- The physics layer reports the same `(a, b)` overlap pair `K` times within
the simulation step `frame`; every report reaches the handler. -/
def iterateSamePairV1 :
    Nat → ServiceState → CollisionEntity → CollisionEntity → Nat → List GameObject →
      Except String (ServiceState × CollisionEntity × CollisionEntity)
  | 0, st, a, b, _, _ => .ok (st, a, b)
  | k + 1, st, a, b, frame, world =>
      match handleV1 st a b frame world with
      | .ok r => iterateSamePairV1 k r.1 r.2.1 r.2.2 frame world
      | .error m => .error m

theorem handleV1Core_blocked (st : ServiceState) (pr en : CollisionEntity)
    (frame : Nat) (world : List GameObject)
    (h : mapGet st.frameGate (gateKeyV1 pr.obj en.obj) = some frame) :
    handleV1Core st pr en frame world = .ok (st, pr) := by
  unfold handleV1Core
  rw [show shouldProcessCollision st.frameGate (gateKeyV1 pr.obj en.obj) frame
      = (false, st.frameGate) from by simp [shouldProcessCollision, h]]

theorem handleV1_blocked (st : ServiceState) (a b : CollisionEntity) (frame : Nat)
    (world : List GameObject)
    (hid : a.obj.hasBody = true ∧ b.obj.hasRank = true)
    (h : mapGet st.frameGate (gateKeyV1 a.obj b.obj) = some frame) :
    handleV1 st a b frame world = .ok (st, a, b) := by
  unfold handleV1
  rw [if_pos hid, handleV1Core_blocked st a b frame world h]

theorem iterateSamePairV1_fixed (k : Nat) (st : ServiceState)
    (a b : CollisionEntity) (frame : Nat) (world : List GameObject)
    (h : handleV1 st a b frame world = .ok (st, a, b)) :
    iterateSamePairV1 k st a b frame world = .ok (st, a, b) := by
  induction k with
  | zero => rfl
  | succ k ih =>
      unfold iterateSamePairV1
      rw [h]
      exact ih

/-- C3: a Normal projectile whose pair with a damageable enemy is reported
`K ≥ 1` times within one simulation step produces exactly one damage
application to that enemy, and the projectile is destroyed (returned to the
pool): the first report passes the frame gate, damages and destroys; every
further report of the pair in the same step is blocked by the gate. -/
theorem C3_normal_hit_once (st : ServiceState) (a b : CollisionEntity)
    (s : NormalState) (frame K : Nat) (world : List GameObject)
    (ha : a.obj.hasBody = true) (hb : b.obj.hasRank = true)
    (htd : b.obj.hasTakeDamage = true)
    (hp : a.payload = some (.normal s))
    (hgate : ¬ mapGet st.frameGate (gateKeyV1 a.obj b.obj) = some frame)
    (hK : 1 ≤ K) :
    iterateSamePairV1 K st a b frame world =
      .ok ({ frameGate := mapSet st.frameGate (gateKeyV1 a.obj b.obj) frame,
             damageLog := st.damageLog ++ [(getEnemyIdentifier b.obj, 1)] },
           { obj := a.obj, payload := some (.normal s), active := false }, b) := by
  obtain ⟨k, rfl⟩ : ∃ k, K = k + 1 := ⟨K - 1, by omega⟩
  have hcore : handleV1Core st a b frame world =
      .ok ({ frameGate := mapSet st.frameGate (gateKeyV1 a.obj b.obj) frame,
             damageLog := st.damageLog ++ [(getEnemyIdentifier b.obj, 1)] },
           { obj := a.obj, payload := some (.normal s), active := false }) := by
    unfold handleV1Core
    rw [show shouldProcessCollision st.frameGate (gateKeyV1 a.obj b.obj) frame
        = (true, mapSet st.frameGate (gateKeyV1 a.obj b.obj) frame) from by
      simp [shouldProcessCollision, hgate]]
    rw [hp]
    simp [payloadOnHit, projOnHitEnemy, htd]
  have hstep : handleV1 st a b frame world =
      .ok ({ frameGate := mapSet st.frameGate (gateKeyV1 a.obj b.obj) frame,
             damageLog := st.damageLog ++ [(getEnemyIdentifier b.obj, 1)] },
           { obj := a.obj, payload := some (.normal s), active := false }, b) := by
    unfold handleV1
    rw [if_pos ⟨ha, hb⟩, hcore]
  unfold iterateSamePairV1
  rw [hstep]
  exact iterateSamePairV1_fixed k _ _ _ frame world
    (handleV1_blocked _ _ _ frame world ⟨ha, hb⟩
      (mapGet_mapSet_self st.frameGate (gateKeyV1 a.obj b.obj) frame))

end Roguelite

namespace Roguelite

/-!
## Frame-gate cleanup on pool return (fixed CollisionService revision)

`Projectile.returnToPool` emits `projectile:return`; the service's
`onProjectileReturn` listener removes every frame-gate entry whose key starts
with `<projId>:`.
-/

/-- JavaScript `String.prototype.startsWith`: prefix test on the character
data. -/
def strStartsWith (s p : String) : Bool :=
  p.data.isPrefixOf s.data

/-- `CollisionService.onProjectileReturn`: delete from the frame gate every
key that starts with `projId + ":"`, where `projId` is
`projectile.name || proj_<round x>_<round y>`. -/
def onProjectileReturn (p : GameObject) (gate : List (String × Nat)) :
    List (String × Nat) :=
  gate.filter (fun kv => !(strStartsWith kv.1 (projIdOf p ++ ":")))

theorem strStartsWith_append (p s : String) : strStartsWith (p ++ s) p = true := by
  rw [strStartsWith, String.data_append, List.isPrefixOf_iff_prefix]
  exact List.prefix_append p.data s.data

theorem mapGet_filter_none (l : List (String × Nat)) (k : String)
    (pred : String × Nat → Bool) (h : ∀ v, pred (k, v) = false) :
    mapGet (l.filter pred) k = none := by
  induction l with
  | nil => rfl
  | cons kv rest ih =>
      by_cases hkv : pred kv = true
      · rw [List.filter_cons_of_pos hkv, mapGet_cons]
        by_cases hk : kv.1 = k
        · exfalso
          rcases kv with ⟨k1, v1⟩
          simp only at hk
          subst hk
          rw [h v1] at hkv
          exact Bool.false_ne_true hkv
        · rw [if_neg hk]
          exact ih
      · rw [List.filter_cons_of_neg (by simpa using hkv)]
        exact ih

/-- C5: when a projectile is released back to the pool, `onProjectileReturn`
removes every frame-gate entry whose key references the projectile's id
(every key of the form `projId:enemyId`), and keeps every other entry, so a
reused pool slot is never blocked by a gate entry of the slot's previous
life. -/
theorem C5_gate_purged_on_return (p : GameObject) (gate : List (String × Nat))
    (e : String) :
    mapGet (onProjectileReturn p gate) (projIdOf p ++ ":" ++ e) = none ∧
    (∀ kv ∈ gate, strStartsWith kv.1 (projIdOf p ++ ":") = false →
      kv ∈ onProjectileReturn p gate) := by
  constructor
  · apply mapGet_filter_none
    intro v
    have h1 : projIdOf p ++ ":" ++ e = (projIdOf p ++ ":") ++ e := by
      rw [String.append_assoc]
    rw [h1, strStartsWith_append]
    rfl
  · intro kv hkv hns
    rw [onProjectileReturn, List.mem_filter]
    exact ⟨hkv, by rw [hns]; rfl⟩

/-- Witness for C5 on a concrete gate: the entry of the returned projectile
`P` is unreachable afterwards and an unrelated entry survives. -/
theorem C5_gate_purged_on_return_witness :
    mapGet (onProjectileReturn
        { name := "P", enemyId := none, x := 0, y := 0 }
        [(projIdOf { name := "P", enemyId := none, x := 0, y := 0 } ++ ":" ++ "E1", 3),
         ("Q:E2", 4)])
      (projIdOf { name := "P", enemyId := none, x := 0, y := 0 } ++ ":" ++ "E1") = none ∧
    ("Q:E2", 4) ∈ onProjectileReturn
        { name := "P", enemyId := none, x := 0, y := 0 }
        [(projIdOf { name := "P", enemyId := none, x := 0, y := 0 } ++ ":" ++ "E1", 3),
         ("Q:E2", 4)] :=
  ⟨(C5_gate_purged_on_return { name := "P", enemyId := none, x := 0, y := 0 }
      [(projIdOf { name := "P", enemyId := none, x := 0, y := 0 } ++ ":" ++ "E1", 3),
       ("Q:E2", 4)] "E1").1,
   (C5_gate_purged_on_return { name := "P", enemyId := none, x := 0, y := 0 }
      [(projIdOf { name := "P", enemyId := none, x := 0, y := 0 } ++ ":" ++ "E1", 3),
       ("Q:E2", 4)] "E1").2 ("Q:E2", 4) (by decide) (by decide)⟩

end Roguelite

namespace Roguelite

/-!
## The frame-gate key construction (C6)
-/

theorem stringDataInj {s t : String} (h : s.data = t.data) : s = t := by
  cases s
  cases t
  congr

theorem colonSplit : ∀ (a c b d : List Char), ':' ∉ a → ':' ∉ c →
    a ++ ':' :: b = c ++ ':' :: d → a = c ∧ b = d := by
  intro a
  induction a with
  | nil =>
      intro c b d _ hc h
      cases c with
      | nil => simpa using h
      | cons y ys =>
          simp only [List.nil_append, List.cons_append, List.cons.injEq] at h
          exact absurd (h.1 ▸ List.mem_cons_self y ys) hc
  | cons x xs ih =>
      intro c b d ha hc h
      cases c with
      | nil =>
          simp only [List.nil_append, List.cons_append, List.cons.injEq] at h
          exact absurd (h.1 ▸ List.mem_cons_self x xs) ha
      | cons y ys =>
          simp only [List.cons_append, List.cons.injEq] at h
          have hrec := ih ys b d (fun hmem => ha (List.mem_cons_of_mem x hmem))
            (fun hmem => hc (List.mem_cons_of_mem y hmem)) h.2
          exact ⟨by rw [h.1, hrec.1], hrec.2⟩

/-- C6 counterexample: the key produced by `generateCollisionKey` does depend
on floating-point positions, and two distinct pairs can share one key.  An
unnamed projectile (`name === ""`) produces different keys for the same
logical (projectile, enemy) pair once it has moved from x = 10 to x = 12;
and the pair (projectile named `a:b`, enemy `c`) collides with the pair
(projectile named `a`, enemy `b:c`). -/
theorem C6_counterexample :
    (generateCollisionKey
        { name := "", enemyId := none, x := 10, y := 0 }
        { name := "", enemyId := some "E1", x := 5, y := 5 } ≠
      generateCollisionKey
        { name := "", enemyId := none, x := 12, y := 0 }
        { name := "", enemyId := some "E1", x := 5, y := 5 }) ∧
    (generateCollisionKey
        { name := "a:b", enemyId := none, x := 0, y := 0 }
        { name := "", enemyId := some "c", x := 0, y := 0 } =
      generateCollisionKey
        { name := "a", enemyId := none, x := 0, y := 0 }
        { name := "", enemyId := some "b:c", x := 0, y := 0 }) := by
  constructor
  · have h10 : jsRound (10 : ℚ) = 10 := by norm_num [jsRound]
    have h12 : jsRound (12 : ℚ) = 12 := by norm_num [jsRound]
    have h0 : jsRound (0 : ℚ) = 0 := by norm_num [jsRound]
    simp only [generateCollisionKey, projIdOf, getEnemyIdentifier, optTruthy]
    rw [h10, h12, h0]
    decide
  · decide

/-- C6 (amended): when the projectile carries a non-empty `name` and the
enemy a truthy `enemyId`, the key is exactly `name:enemyId` — a deterministic
function of the two stable ids that does not depend on the entities'
positions — and, provided projectile names contain no colon, two pairs
produce the same key only when both ids agree.  For entities without such
ids the key falls back to rounded positions (see the counterexample). -/
theorem C6_amended_key_construction (p1 p2 e1 e2 : GameObject)
    (hp1 : p1.name ≠ "") (he1 : optTruthy e1.enemyId = true)
    (hp2 : p2.name ≠ "") (he2 : optTruthy e2.enemyId = true)
    (hc1 : ':' ∉ p1.name.data) (hc2 : ':' ∉ p2.name.data) :
    generateCollisionKey p1 e1 = p1.name ++ ":" ++ e1.enemyId.getD "" ∧
    (p1.name = p2.name → e1.enemyId = e2.enemyId →
      generateCollisionKey p1 e1 = generateCollisionKey p2 e2) ∧
    (generateCollisionKey p1 e1 = generateCollisionKey p2 e2 →
      p1.name = p2.name ∧ e1.enemyId.getD "" = e2.enemyId.getD "") := by
  have hkey : ∀ (p e : GameObject), p.name ≠ "" → optTruthy e.enemyId = true →
      generateCollisionKey p e = p.name ++ ":" ++ e.enemyId.getD "" := by
    intro p e hp he
    rw [generateCollisionKey, projIdOf, if_pos hp, getEnemyIdentifier, if_pos he]
  have hk1 := hkey p1 e1 hp1 he1
  have hk2 := hkey p2 e2 hp2 he2
  refine ⟨hk1, ?_, ?_⟩
  · intro hn hi
    rw [hk1, hk2, hn, hi]
  · intro heq
    rw [hk1, hk2] at heq
    have hdata := congrArg String.data heq
    simp only [String.data_append, List.append_assoc, List.singleton_append] at hdata
    have hsplit := colonSplit p1.name.data p2.name.data
      (e1.enemyId.getD "").data (e2.enemyId.getD "").data hc1 hc2 hdata
    exact ⟨stringDataInj hsplit.1, stringDataInj hsplit.2⟩

/-- Witness for the amended C6 at named entities. -/
theorem C6_amended_key_construction_witness :
    generateCollisionKey
        { name := "P1", enemyId := none, x := 1, y := 2 }
        { name := "", enemyId := some "E1", x := 3, y := 4 } =
      "P1" ++ ":" ++ "E1" ∧
    (generateCollisionKey
        { name := "P1", enemyId := none, x := 1, y := 2 }
        { name := "", enemyId := some "E1", x := 3, y := 4 } =
      generateCollisionKey
        { name := "P2", enemyId := none, x := 5, y := 6 }
        { name := "", enemyId := some "E2", x := 7, y := 8 } →
      ("P1" : String) = "P2" ∧ ("E1" : String) = "E2") := by
  have h := C6_amended_key_construction
    { name := "P1", enemyId := none, x := 1, y := 2 }
    { name := "P2", enemyId := none, x := 5, y := 6 }
    { name := "", enemyId := some "E1", x := 3, y := 4 }
    { name := "", enemyId := some "E2", x := 7, y := 8 }
    (by decide) (by decide) (by decide) (by decide) (by decide) (by decide)
  exact ⟨h.1, h.2.2⟩

end Roguelite

namespace Roguelite

/-!
## Failure semantics of the collision handler (C8)
-/

/-- C8 counterexample: with a classifiable pair whose enemy operand (an
object carrying `rank` but no `takeDamage`) passes the frame gate, the
handler of src/services/CollisionService.ts reaches the unguarded
`enemy.takeDamage(...)` call and an exception escapes — the hit is not
skipped silently with no state change. -/
theorem C8_counterexample :
    handleV1 ⟨[], []⟩
      { obj := { name := "P", enemyId := none, x := 0, y := 0,
                 hasGetDirection := true },
        payload := some (.normal newNormal), active := true }
      { obj := { name := "", enemyId := some "E2", x := 3, y := 4,
                 hasRank := true, hasPursue := true, hasTakeDamage := false },
        payload := none, active := true } 1 [] =
      .error "enemy.takeDamage is not a function" := by
  rfl

/-- C8 (amended): an overlap pair that cannot be classified into
(projectile, target) makes the handler return with no state change; but an
identified target that lacks the `takeDamage` capability is not skipped
silently — the unguarded `takeDamage` call raises an error that crosses the
handler boundary. -/
theorem C8_amended_failure_semantics (st : ServiceState) (a b : CollisionEntity)
    (frame : Nat) (world : List GameObject) :
    (identifyProjectileEnemyV1 a.obj b.obj = none →
      handleV1 st a b frame world = .ok (st, a, b)) ∧
    (a.obj.hasBody = true → b.obj.hasRank = true →
      b.obj.hasTakeDamage = false →
      ¬ mapGet st.frameGate (gateKeyV1 a.obj b.obj) = some frame →
      handleV1 st a b frame world = .error "enemy.takeDamage is not a function") := by
  constructor
  · intro hid
    have hcond : ¬ (a.obj.hasBody = true ∧ b.obj.hasRank = true) ∧
        ¬ (b.obj.hasBody = true ∧ a.obj.hasRank = true) := by
      by_contra hcontra
      rw [identifyProjectileEnemyV1] at hid
      rcases Decidable.not_and_iff_or_not.mp hcontra with h1 | h1
      · rw [not_not] at h1
        rw [if_pos (by exact_mod_cast h1)] at hid
        exact Option.noConfusion hid
      · rw [not_not] at h1
        by_cases h2 : a.obj.hasBody = true ∧ b.obj.hasRank = true
        · rw [if_pos (by exact_mod_cast h2)] at hid
          exact Option.noConfusion hid
        · rw [if_neg (by exact_mod_cast h2), if_pos (by exact_mod_cast h1)] at hid
          exact Option.noConfusion hid
    rw [handleV1, if_neg (by exact_mod_cast hcond.1), if_neg (by exact_mod_cast hcond.2)]
  · intro ha hb htd hgate
    rw [handleV1, if_pos ⟨ha, hb⟩]
    have hcore : handleV1Core st a b frame world =
        .error "enemy.takeDamage is not a function" := by
      simp [handleV1Core, shouldProcessCollision, hgate, htd]
    rw [hcore]

/-- Witness for the amended C8: an unclassifiable pair is a no-op, and a
rank-bearing target without `takeDamage` makes the handler raise. -/
theorem C8_amended_failure_semantics_witness :
    handleV1 ⟨[], []⟩
      { obj := { name := "A", enemyId := none, x := 0, y := 0, hasBody := false },
        payload := none, active := true }
      { obj := { name := "B", enemyId := none, x := 0, y := 0, hasBody := false },
        payload := none, active := true } 1 [] =
      .ok (⟨[], []⟩,
        { obj := { name := "A", enemyId := none, x := 0, y := 0, hasBody := false },
          payload := none, active := true },
        { obj := { name := "B", enemyId := none, x := 0, y := 0, hasBody := false },
          payload := none, active := true }) ∧
    handleV1 ⟨[], []⟩
      { obj := { name := "P", enemyId := none, x := 0, y := 0,
                 hasGetDirection := true },
        payload := some (.pierce newPierce), active := true }
      { obj := { name := "", enemyId := some "E3", x := 1, y := 1,
                 hasRank := true, hasPursue := true, hasTakeDamage := false },
        payload := none, active := true } 2 [] =
      .error "enemy.takeDamage is not a function" :=
  ⟨(C8_amended_failure_semantics ⟨[], []⟩
      { obj := { name := "A", enemyId := none, x := 0, y := 0, hasBody := false },
        payload := none, active := true }
      { obj := { name := "B", enemyId := none, x := 0, y := 0, hasBody := false },
        payload := none, active := true } 1 []).1 (by decide),
   (C8_amended_failure_semantics ⟨[], []⟩
      { obj := { name := "P", enemyId := none, x := 0, y := 0,
                 hasGetDirection := true },
        payload := some (.pierce newPierce), active := true }
      { obj := { name := "", enemyId := some "E3", x := 1, y := 1,
                 hasRank := true, hasPursue := true, hasTakeDamage := false },
        payload := none, active := true } 2 []).2 rfl rfl rfl (by simp)⟩

end Roguelite

namespace Roguelite

/-!
## Explosive detonation (C7) and the witness for C3
-/

/-- Witness for C3: three reports of the same Normal-projectile/enemy pair in
frame 7 — one damage entry, projectile destroyed. -/
theorem C3_normal_hit_once_witness :
    iterateSamePairV1 3 ⟨[], []⟩
      { obj := { name := "P", enemyId := none, x := 0, y := 0,
                 hasGetDirection := true },
        payload := some (.normal newNormal), active := true }
      { obj := { name := "", enemyId := some "E1", x := 5, y := 5,
                 hasRank := true, hasPursue := true, hasTakeDamage := true },
        payload := none, active := true } 7 [] =
      .ok ({ frameGate := mapSet []
               (gateKeyV1
                 { name := "P", enemyId := none, x := 0, y := 0,
                   hasGetDirection := true }
                 { name := "", enemyId := some "E1", x := 5, y := 5,
                   hasRank := true, hasPursue := true, hasTakeDamage := true }) 7,
             damageLog := [] ++ [(getEnemyIdentifier
               { name := "", enemyId := some "E1", x := 5, y := 5,
                 hasRank := true, hasPursue := true, hasTakeDamage := true }, 1)] },
           { obj := { name := "P", enemyId := none, x := 0, y := 0,
                      hasGetDirection := true },
             payload := some (.normal newNormal), active := false },
           { obj := { name := "", enemyId := some "E1", x := 5, y := 5,
                      hasRank := true, hasPursue := true, hasTakeDamage := true },
             payload := none, active := true }) :=
  C3_normal_hit_once ⟨[], []⟩
    { obj := { name := "P", enemyId := none, x := 0, y := 0,
               hasGetDirection := true },
      payload := some (.normal newNormal), active := true }
    { obj := { name := "", enemyId := some "E1", x := 5, y := 5,
               hasRank := true, hasPursue := true, hasTakeDamage := true },
      payload := none, active := true }
    newNormal 7 3 [] rfl rfl rfl rfl (by simp) (by omega)

/-- C7: explosive detonation is idempotent and terminal.  `onHitEnemy`
always returns true (the projectile is destroyed regardless of how many
targets the area pass finds); the first hit on an armed instance sets the
detonation flag, disables the physics body and resolves the area damage in
one `damageEnemiesInRadius` pass; a hit on an already-detonated instance
changes no state and applies no area damage, and in particular any second
call composed after any first call is such a no-op. -/
theorem C7_explosive_idempotent (s : ExplosiveState) (world w2 : List GameObject) :
    ((s.onHitEnemy world).2.2 = true) ∧
    (s.hasExploded = false →
      (s.onHitEnemy world).1.hasExploded = true ∧
      (s.onHitEnemy world).1.bodyEnabled = false ∧
      (s.onHitEnemy world).2.1 =
        (ExplosiveState.damageEnemiesInRadius
          { s with hasExploded := true, bodyEnabled := false } world).2) ∧
    (s.hasExploded = true → s.onHitEnemy world = (s, [], true)) ∧
    (ExplosiveState.onHitEnemy (s.onHitEnemy world).1 w2 =
      ((s.onHitEnemy world).1, [], true)) := by
  have hexp : ∀ t : ExplosiveState, t.hasExploded = true →
      t.onHitEnemy w2 = (t, [], true) := by
    intro t ht
    rw [ExplosiveState.onHitEnemy, if_pos ht]
  by_cases h : s.hasExploded = true
  · have h0 : s.onHitEnemy world = (s, [], true) := by
      rw [ExplosiveState.onHitEnemy, if_pos h]
    refine ⟨by rw [h0], ?_, fun _ => h0, ?_⟩
    · intro hfalse
      rw [hfalse] at h
      exact absurd h Bool.false_ne_true
    · rw [h0]
      exact hexp s h
  · have hf : s.hasExploded = false := by
      cases hb : s.hasExploded
      · rfl
      · exact absurd hb h
    have h0 : s.onHitEnemy world =
        ((ExplosiveState.damageEnemiesInRadius
            { s with hasExploded := true, bodyEnabled := false } world).1,
          (ExplosiveState.damageEnemiesInRadius
            { s with hasExploded := true, bodyEnabled := false } world).2, true) := by
      rw [ExplosiveState.onHitEnemy, if_neg h, ExplosiveState.explode]
    have hstate : (s.onHitEnemy world).1 =
        (ExplosiveState.damageEnemiesInRadius
          { s with hasExploded := true, bodyEnabled := false } world).1 := by
      rw [h0]
    have hflag : (ExplosiveState.damageEnemiesInRadius
        { s with hasExploded := true, bodyEnabled := false } world).1.hasExploded
          = true := by
      rw [ExplosiveState.damageEnemiesInRadius]
    have hbody : (ExplosiveState.damageEnemiesInRadius
        { s with hasExploded := true, bodyEnabled := false } world).1.bodyEnabled
          = false := by
      rw [ExplosiveState.damageEnemiesInRadius]
    refine ⟨by rw [h0], ?_, ?_, ?_⟩
    · intro _
      refine ⟨by rw [hstate]; exact hflag, by rw [hstate]; exact hbody, by rw [h0]⟩
    · intro htrue
      rw [htrue] at hf
      simp at hf
    · rw [hstate]
      exact hexp _ hflag

/-- Witness for C7: a fresh explosive projectile at the origin with one
in-radius enemy; the first hit detonates and the second is a no-op. -/
theorem C7_explosive_idempotent_witness :
    ((ExplosiveState.onHitEnemy newExplosive
        [{ name := "", enemyId := some "E1", x := 10, y := 0,
           hasRank := true, hasPursue := true, hasTakeDamage := true }]).2.2 = true) ∧
    ((ExplosiveState.onHitEnemy newExplosive
        [{ name := "", enemyId := some "E1", x := 10, y := 0,
           hasRank := true, hasPursue := true, hasTakeDamage := true }]).1.hasExploded
        = true ∧
      (ExplosiveState.onHitEnemy newExplosive
        [{ name := "", enemyId := some "E1", x := 10, y := 0,
           hasRank := true, hasPursue := true, hasTakeDamage := true }]).1.bodyEnabled
        = false ∧
      (ExplosiveState.onHitEnemy newExplosive
        [{ name := "", enemyId := some "E1", x := 10, y := 0,
           hasRank := true, hasPursue := true, hasTakeDamage := true }]).2.1 =
        (ExplosiveState.damageEnemiesInRadius
          { newExplosive with hasExploded := true, bodyEnabled := false }
          [{ name := "", enemyId := some "E1", x := 10, y := 0,
             hasRank := true, hasPursue := true, hasTakeDamage := true }]).2) ∧
    (ExplosiveState.onHitEnemy
        (ExplosiveState.onHitEnemy newExplosive
          [{ name := "", enemyId := some "E1", x := 10, y := 0,
             hasRank := true, hasPursue := true, hasTakeDamage := true }]).1 [] =
      ((ExplosiveState.onHitEnemy newExplosive
          [{ name := "", enemyId := some "E1", x := 10, y := 0,
             hasRank := true, hasPursue := true, hasTakeDamage := true }]).1,
        [], true)) := by
  have h := C7_explosive_idempotent newExplosive
    [{ name := "", enemyId := some "E1", x := 10, y := 0,
       hasRank := true, hasPursue := true, hasTakeDamage := true }] []
  exact ⟨h.1, h.2.1 rfl, h.2.2.2⟩

end Roguelite

namespace Roguelite

/-!
## Area-of-effect damage resolution (C4)
-/

theorem explosionFold_log (bodies : List GameObject) :
    ∀ (done : List String) (log : List (String × Nat)),
      (bodies.map getEnemyIdentifier).Nodup →
      (∀ b ∈ bodies, getEnemyIdentifier b ∉ done) →
      (bodies.foldl explosionFold (done, log)).2 =
        log ++ (bodies.filter (fun b => b.hasTakeDamage)).map
          (fun b => (getEnemyIdentifier b, 2)) := by
  induction bodies with
  | nil => intro done log _ _; simp
  | cons b rest ih =>
      intro done log hnodup hdj
      have hnodup2 : getEnemyIdentifier b ∉ rest.map getEnemyIdentifier ∧
          (rest.map getEnemyIdentifier).Nodup := by
        rw [List.map_cons] at hnodup
        exact List.nodup_cons.mp hnodup
      simp only [List.foldl_cons]
      by_cases htd : b.hasTakeDamage = true
      · have hnotin : getEnemyIdentifier b ∉ done := hdj b (List.mem_cons_self b rest)
        have hstep : explosionFold (done, log) b =
            (done ++ [getEnemyIdentifier b], log ++ [(getEnemyIdentifier b, 2)]) := by
          simp [explosionFold, htd, hnotin]
        rw [hstep]
        have hdj2 : ∀ b2 ∈ rest, getEnemyIdentifier b2 ∉ done ++ [getEnemyIdentifier b] := by
          intro b2 hb2
          rw [List.mem_append]
          rintro (hmem | hmem)
          · exact hdj b2 (List.mem_cons_of_mem b hb2) hmem
          · rw [List.mem_singleton] at hmem
            exact hnodup2.1 (hmem ▸ List.mem_map_of_mem getEnemyIdentifier hb2)
        rw [ih (done ++ [getEnemyIdentifier b]) (log ++ [(getEnemyIdentifier b, 2)])
          hnodup2.2 hdj2]
        rw [List.filter_cons_of_pos htd]
        simp
      · have hstep : explosionFold (done, log) b = (done, log) := by
          have htd2 : b.hasTakeDamage = false := by
            cases hx : b.hasTakeDamage
            · rfl
            · exact absurd hx htd
          simp [explosionFold, htd2]
        rw [hstep, ih done log hnodup2.2
          (fun b2 hb2 => hdj b2 (List.mem_cons_of_mem b hb2))]
        rw [List.filter_cons_of_neg (by simpa using htd)]

/-- C4: for a fresh detonation (empty damaged set) in a world whose targets
have pairwise distinct identifiers, every damageable target within the
explosion radius (inclusive) receives exactly one damage application from the
area pass, every target strictly outside receives none, and every damage
application of the pass carries the fixed explosive amount 2. -/
theorem C4_explosion_radius_damage (s : ExplosiveState) (world : List GameObject)
    (b : GameObject) (hfresh : s.damagedEnemies = [])
    (hnodup : (world.map getEnemyIdentifier).Nodup)
    (hb : b ∈ world) (htd : b.hasTakeDamage = true) :
    (inRadius s.x s.y s.explosionRadius b.x b.y = true →
      (s.damageEnemiesInRadius world).2.countP
        (fun kv => kv.1 == getEnemyIdentifier b) = 1) ∧
    (inRadius s.x s.y s.explosionRadius b.x b.y = false →
      (s.damageEnemiesInRadius world).2.countP
        (fun kv => kv.1 == getEnemyIdentifier b) = 0) ∧
    (∀ kv ∈ (s.damageEnemiesInRadius world).2, kv.2 = 2) := by
  have hsubB : List.Sublist (overlapCirc s.x s.y s.explosionRadius world) world :=
    List.filter_sublist world
  have hnodupB : ((overlapCirc s.x s.y s.explosionRadius world).map
      getEnemyIdentifier).Nodup :=
    hnodup.sublist (hsubB.map getEnemyIdentifier)
  have hlog : (s.damageEnemiesInRadius world).2 =
      ((overlapCirc s.x s.y s.explosionRadius world).filter
        (fun b2 => b2.hasTakeDamage)).map (fun b2 => (getEnemyIdentifier b2, 2)) := by
    rw [ExplosiveState.damageEnemiesInRadius]
    simp only []
    rw [hfresh]
    rw [explosionFold_log (overlapCirc s.x s.y s.explosionRadius world) [] []
      hnodupB (fun _ _ => List.not_mem_nil _)]
    simp
  have hsubL : List.Sublist
      ((overlapCirc s.x s.y s.explosionRadius world).filter
        (fun b2 => b2.hasTakeDamage)) world :=
    List.Sublist.trans (List.filter_sublist _) hsubB
  have hcount : (s.damageEnemiesInRadius world).2.countP
      (fun kv => kv.1 == getEnemyIdentifier b) =
      (((overlapCirc s.x s.y s.explosionRadius world).filter
        (fun b2 => b2.hasTakeDamage)).map getEnemyIdentifier).count
        (getEnemyIdentifier b) := by
    rw [hlog, List.countP_map, List.count_eq_countP, List.countP_map]
    rfl
  refine ⟨?_, ?_, ?_⟩
  · intro hr
    rw [hcount]
    have hmemB : b ∈ overlapCirc s.x s.y s.explosionRadius world := by
      rw [overlapCirc, List.mem_filter]
      exact ⟨hb, hr⟩
    have hmemL : b ∈ (overlapCirc s.x s.y s.explosionRadius world).filter
        (fun b2 => b2.hasTakeDamage) := by
      rw [List.mem_filter]
      exact ⟨hmemB, htd⟩
    exact List.count_eq_one_of_mem
      (hnodup.sublist (hsubL.map getEnemyIdentifier))
      (List.mem_map_of_mem getEnemyIdentifier hmemL)
  · intro hr
    rw [hcount]
    rw [List.count_eq_countP, List.countP_map]
    apply List.countP_eq_zero.mpr
    intro b2 hb2
    simp only [Function.comp, beq_iff_eq, decide_eq_true_eq]
    intro heq
    have hb2w : b2 ∈ world := hsubL.subset hb2
    have hbb : b2 = b := List.inj_on_of_nodup_map hnodup hb2w hb heq
    subst hbb
    have hmemB : b2 ∈ overlapCirc s.x s.y s.explosionRadius world :=
      (List.mem_filter.mp hb2).1
    have hrad : inRadius s.x s.y s.explosionRadius b2.x b2.y = true :=
      (List.mem_filter.mp hmemB).2
    rw [hr] at hrad
    exact Bool.false_ne_true hrad
  · intro kv hkv
    rw [hlog] at hkv
    obtain ⟨b2, _, hkv2⟩ := List.mem_map.mp hkv
    rw [← hkv2]

/-- Witness for C4: a radius-60 detonation at the origin with a damageable
enemy at distance 10 (damaged exactly once) and one at distance 100
(untouched). -/
theorem C4_explosion_radius_damage_witness :
    (ExplosiveState.damageEnemiesInRadius newExplosive
      [{ name := "", enemyId := some "E1", x := 10, y := 0,
         hasRank := true, hasPursue := true, hasTakeDamage := true },
       { name := "", enemyId := some "E2", x := 100, y := 0,
         hasRank := true, hasPursue := true, hasTakeDamage := true }]).2.countP
      (fun kv => kv.1 == getEnemyIdentifier
        { name := "", enemyId := some "E1", x := 10, y := 0,
          hasRank := true, hasPursue := true, hasTakeDamage := true }) = 1 ∧
    (ExplosiveState.damageEnemiesInRadius newExplosive
      [{ name := "", enemyId := some "E1", x := 10, y := 0,
         hasRank := true, hasPursue := true, hasTakeDamage := true },
       { name := "", enemyId := some "E2", x := 100, y := 0,
         hasRank := true, hasPursue := true, hasTakeDamage := true }]).2.countP
      (fun kv => kv.1 == getEnemyIdentifier
        { name := "", enemyId := some "E2", x := 100, y := 0,
          hasRank := true, hasPursue := true, hasTakeDamage := true }) = 0 := by
  constructor
  · exact (C4_explosion_radius_damage newExplosive
      [{ name := "", enemyId := some "E1", x := 10, y := 0,
         hasRank := true, hasPursue := true, hasTakeDamage := true },
       { name := "", enemyId := some "E2", x := 100, y := 0,
         hasRank := true, hasPursue := true, hasTakeDamage := true }]
      { name := "", enemyId := some "E1", x := 10, y := 0,
        hasRank := true, hasPursue := true, hasTakeDamage := true }
      rfl (by decide) (by decide) rfl).1
      (by simp [inRadius, newExplosive]; norm_num)
  · exact (C4_explosion_radius_damage newExplosive
      [{ name := "", enemyId := some "E1", x := 10, y := 0,
         hasRank := true, hasPursue := true, hasTakeDamage := true },
       { name := "", enemyId := some "E2", x := 100, y := 0,
         hasRank := true, hasPursue := true, hasTakeDamage := true }]
      { name := "", enemyId := some "E2", x := 100, y := 0,
        hasRank := true, hasPursue := true, hasTakeDamage := true }
      rfl (by decide) (by decide) rfl).2.1
      (by simp [inRadius, newExplosive]; norm_num)

end Roguelite

namespace Roguelite

/-!
## Pierce-projectile lifetime accounting (C2)

A run delivers a trace of overlap reports `(enemy, frame)` for one fixed
projectile to the collision handler; once the projectile has been destroyed
(returned to the pool and removed from the physics group) the physics layer
stops reporting it, so later reports are skipped.
-/

/-- A pierce projectile fresh from `reset` with configured maximum `N`. -/
def freshPierce (N : Nat) : PierceState :=
  { x := 0, y := 0, dir := .down, bodyEnabled := true, hitGate := [],
    hitEnemies := [], maxPierceCount := N, currentPierceCount := 0 }

/-- Deliver a trace of overlap reports for one projectile to
`handleProjectileEnemyCollision`; reports against a destroyed (pooled)
projectile are no longer generated by the physics layer. -/
def runSameProjectile :
    List (GameObject × Nat) → ServiceState → CollisionEntity → List GameObject →
      Except String (ServiceState × CollisionEntity)
  | [], st, pr, _ => .ok (st, pr)
  | (e, f) :: rest, st, pr, world =>
      if pr.active = false then runSameProjectile rest st pr world
      else
        match handleV1 st pr { obj := e, payload := none, active := true } f world with
        | .ok r => runSameProjectile rest r.1 r.2.1 world
        | .error m => .error m

/-- The identifiers of the targets reported in a trace. -/
def entIdsOf (trace : List (GameObject × Nat)) : List String :=
  trace.map (fun ef => getEnemyIdentifier ef.1)

theorem keySuffixInj (a b c : String) (h : a ++ ":" ++ b = a ++ ":" ++ c) :
    b = c := by
  have hd := congrArg String.data h
  simp only [String.data_append, List.append_assoc, List.singleton_append] at hd
  have h2 := List.append_cancel_left hd
  simp only [List.cons.injEq] at h2
  exact stringDataInj h2.2

theorem gateKeyV1_of_enemyId (p e : GameObject) (i : String)
    (he : e.enemyId = some i) : gateKeyV1 p e = p.name ++ ":" ++ i := by
  rw [gateKeyV1, he]

theorem getEnemyIdentifier_of_truthy (e : GameObject) (i : String)
    (he : e.enemyId = some i) (hi : i ≠ "") : getEnemyIdentifier e = i := by
  rw [getEnemyIdentifier, if_pos (by rw [he]; simpa [optTruthy] using hi), he]
  rfl

theorem handleV1_first (st : ServiceState) (a b : CollisionEntity) (f : Nat)
    (world : List GameObject) (ha : a.obj.hasBody = true)
    (hb : b.obj.hasRank = true) :
    handleV1 st a b f world =
      match handleV1Core st a b f world with
      | .ok r => .ok (r.1, r.2, b)
      | .error m => .error m := by
  rw [handleV1, if_pos ⟨ha, hb⟩]

theorem handleV1Core_processed (st : ServiceState) (pr en : CollisionEntity)
    (f : Nat) (world : List GameObject)
    (hgate : ¬ mapGet st.frameGate (gateKeyV1 pr.obj en.obj) = some f)
    (htd : en.obj.hasTakeDamage = true) :
    handleV1Core st pr en f world =
      .ok ({ frameGate := mapSet st.frameGate (gateKeyV1 pr.obj en.obj) f,
             damageLog := st.damageLog
               ++ (payloadOnHit pr.payload en.obj f world).2.1
               ++ [(getEnemyIdentifier en.obj, 1)] },
           { pr with payload := (payloadOnHit pr.payload en.obj f world).1,
                     active := pr.active
                       && !(payloadOnHit pr.payload en.obj f world).2.2 }) := by
  simp [handleV1Core, shouldProcessCollision, hgate, htd]

theorem payloadOnHit_pierce (p : PierceState) (e : GameObject) (f : Nat)
    (world : List GameObject) :
    payloadOnHit (some (.pierce p)) e f world =
      (some (.pierce (p.onHitEnemy e f).1), [], (p.onHitEnemy e f).2) := by
  simp [payloadOnHit, projOnHitEnemy]

theorem onHitEnemy_spec (p : PierceState) (e : GameObject) (f : Nat) :
    ((mapGet p.hitGate (getEnemyIdentifier e)).isSome = true ∧
      p.onHitEnemy e f = (p, false)) ∨
    (getEnemyIdentifier e ∈ p.hitEnemies ∧
      p.onHitEnemy e f =
        ({ p with hitGate := mapSet p.hitGate (getEnemyIdentifier e) f },
          decide (p.currentPierceCount ≥ p.maxPierceCount))) ∨
    (getEnemyIdentifier e ∉ p.hitEnemies ∧
      p.onHitEnemy e f =
        ({ p with hitGate := mapSet p.hitGate (getEnemyIdentifier e) f,
                  hitEnemies := p.hitEnemies ++ [getEnemyIdentifier e],
                  currentPierceCount := p.currentPierceCount + 1 },
          decide (p.currentPierceCount + 1 ≥ p.maxPierceCount))) := by
  cases hg : mapGet p.hitGate (getEnemyIdentifier e) with
  | some lf =>
      by_cases hc : lf ≠ 0 ∧ f - lf < 5
      · left
        constructor
        · rfl
        · rw [PierceState.onHitEnemy]
          simp only [PierceState.shouldProcessHit, hg, if_pos hc]
      · by_cases hmem : getEnemyIdentifier e ∈ p.hitEnemies
        · right; left
          refine ⟨hmem, ?_⟩
          rw [PierceState.onHitEnemy]
          simp only [PierceState.shouldProcessHit, hg, if_neg hc]
          simp [hmem]
        · right; right
          refine ⟨hmem, ?_⟩
          rw [PierceState.onHitEnemy]
          simp only [PierceState.shouldProcessHit, hg, if_neg hc]
          simp [hmem]
  | none =>
      by_cases hmem : getEnemyIdentifier e ∈ p.hitEnemies
      · right; left
        refine ⟨hmem, ?_⟩
        rw [PierceState.onHitEnemy]
        simp only [PierceState.shouldProcessHit, hg]
        simp [hmem]
      · right; right
        refine ⟨hmem, ?_⟩
        rw [PierceState.onHitEnemy]
        simp only [PierceState.shouldProcessHit, hg]
        simp [hmem]

end Roguelite

namespace Roguelite

/-- Invariant of a pierce-projectile run, relating the service state and the
projectile entity to the set `seen` of target identifiers reported so far:
the hit set is duplicate-free and counted by `currentPierceCount`; the
targets damaged so far are exactly the hit set; while the projectile is
active the hit set is exactly the identifiers seen so far and the counter is
below the maximum, and once destroyed the counter equals the maximum; and
both gates only hold keys of already-hit targets. -/
def pierceInv (N : Nat) (projObj : GameObject) (seen : List String)
    (st : ServiceState) (pr : CollisionEntity) : Prop :=
  pr.obj = projObj ∧
  ∃ p : PierceState,
    pr.payload = some (.pierce p) ∧
    p.maxPierceCount = N ∧
    p.hitEnemies.Nodup ∧
    p.currentPierceCount = p.hitEnemies.length ∧
    (∀ i : String, (∃ a : Nat, (i, a) ∈ st.damageLog) ↔ i ∈ p.hitEnemies) ∧
    (if pr.active = true then
        p.currentPierceCount < N ∧ ∀ i : String, (i ∈ p.hitEnemies ↔ i ∈ seen)
      else
        p.currentPierceCount = N ∧ ∀ i ∈ p.hitEnemies, i ∈ seen) ∧
    (∀ i : String,
      (mapGet st.frameGate (projObj.name ++ ":" ++ i)).isSome = true →
        i ∈ p.hitEnemies) ∧
    (∀ i : String, (mapGet p.hitGate i).isSome = true → i ∈ p.hitEnemies)

theorem svcGate_preserved (g : List (String × Nat)) (name i0 : String) (f : Nat)
    (he : List String)
    (hg : ∀ i, (mapGet g (name ++ ":" ++ i)).isSome = true → i ∈ he)
    (hi0 : i0 ∈ he) :
    ∀ i, (mapGet (mapSet g (name ++ ":" ++ i0) f) (name ++ ":" ++ i)).isSome = true →
      i ∈ he := by
  intro i hsome
  rcases mapGet_mapSet_isSome _ _ _ _ hsome with heq | hold
  · rw [keySuffixInj name i i0 heq]
    exact hi0
  · exact hg i hold

theorem hitGate_preserved (g : List (String × Nat)) (i0 : String) (f : Nat)
    (he : List String)
    (hg : ∀ i, (mapGet g i).isSome = true → i ∈ he) (hi0 : i0 ∈ he) :
    ∀ i, (mapGet (mapSet g i0 f) i).isSome = true → i ∈ he := by
  intro i hsome
  rcases mapGet_mapSet_isSome _ _ _ _ hsome with heq | hold
  · rw [heq]
    exact hi0
  · exact hg i hold

theorem dmgLog_extend (log : List (String × Nat)) (he : List String)
    (i0 : String) (a0 : Nat)
    (hdmg : ∀ i, (∃ a, (i, a) ∈ log) ↔ i ∈ he) (hi0 : i0 ∈ he) :
    ∀ i, (∃ a, (i, a) ∈ log ++ [(i0, a0)]) ↔ i ∈ he := by
  intro i
  constructor
  · rintro ⟨a, ha⟩
    rcases List.mem_append.mp ha with h1 | h1
    · exact (hdmg i).mp ⟨a, h1⟩
    · rw [List.mem_singleton, Prod.mk.injEq] at h1
      rw [h1.1]
      exact hi0
  · intro hmem
    obtain ⟨a, ha⟩ := (hdmg i).mpr hmem
    exact ⟨a, List.mem_append_left _ ha⟩

theorem dmgLog_extend_new (log : List (String × Nat)) (he : List String)
    (i0 : String) (a0 : Nat)
    (hdmg : ∀ i, (∃ a, (i, a) ∈ log) ↔ i ∈ he) :
    ∀ i, (∃ a, (i, a) ∈ log ++ [(i0, a0)]) ↔ i ∈ he ++ [i0] := by
  intro i
  constructor
  · rintro ⟨a, ha⟩
    rcases List.mem_append.mp ha with h1 | h1
    · exact List.mem_append_left _ ((hdmg i).mp ⟨a, h1⟩)
    · rw [List.mem_singleton, Prod.mk.injEq] at h1
      rw [h1.1]
      exact List.mem_append_right _ (List.mem_singleton_self i0)
  · intro hmem
    rcases List.mem_append.mp hmem with h1 | h1
    · obtain ⟨a, ha⟩ := (hdmg i).mpr h1
      exact ⟨a, List.mem_append_left _ ha⟩
    · rw [List.mem_singleton] at h1
      exact ⟨a0, List.mem_append_right _ (by rw [h1]; exact List.mem_singleton_self _)⟩

theorem seen_equiv_extend (he seen : List String) (i0 : String)
    (h : ∀ i, i ∈ he ↔ i ∈ seen) (hi0 : i0 ∈ he) :
    ∀ i, i ∈ he ↔ i ∈ seen ++ [i0] := by
  intro i
  constructor
  · intro hmem
    exact List.mem_append_left _ ((h i).mp hmem)
  · intro hmem
    rcases List.mem_append.mp hmem with h1 | h1
    · exact (h i).mpr h1
    · rw [List.mem_singleton] at h1
      rw [h1]
      exact hi0

theorem seen_equiv_extend_new (he seen : List String) (i0 : String)
    (h : ∀ i, i ∈ he ↔ i ∈ seen) :
    ∀ i, i ∈ he ++ [i0] ↔ i ∈ seen ++ [i0] := by
  intro i
  rw [List.mem_append, List.mem_append, h i]

theorem pierceInv_grow (N : Nat) (projObj : GameObject) (seen : List String)
    (st : ServiceState) (pr : CollisionEntity) (i0 : String)
    (hact : pr.active = false) (hinv : pierceInv N projObj seen st pr) :
    pierceInv N projObj (seen ++ [i0]) st pr := by
  obtain ⟨hobj, p, hpay, hmax, hnodup, hcount, hdmg, hai, hsvc, hpg⟩ := hinv
  refine ⟨hobj, p, hpay, hmax, hnodup, hcount, hdmg, ?_, hsvc, hpg⟩
  rw [hact] at hai ⊢
  simp only [Bool.false_eq_true, if_false] at hai ⊢
  exact ⟨hai.1, fun i hmem => List.mem_append_left _ (hai.2 i hmem)⟩

end Roguelite

namespace Roguelite

theorem handleV1Core_processed_obj (st : ServiceState) (pr : CollisionEntity)
    (e : GameObject) (f : Nat) (world : List GameObject)
    (hgate : ¬ mapGet st.frameGate (gateKeyV1 pr.obj e) = some f)
    (htd : e.hasTakeDamage = true) :
    handleV1Core st pr { obj := e, payload := none, active := true } f world =
      .ok ({ frameGate := mapSet st.frameGate (gateKeyV1 pr.obj e) f,
             damageLog := st.damageLog ++ (payloadOnHit pr.payload e f world).2.1
               ++ [(getEnemyIdentifier e, 1)] },
           { pr with payload := (payloadOnHit pr.payload e f world).1,
                     active := pr.active
                       && !(payloadOnHit pr.payload e f world).2.2 }) :=
  handleV1Core_processed st pr { obj := e, payload := none, active := true } f world
    hgate htd

theorem pierceStep_inv (N : Nat) (projObj : GameObject)
    (hbody : projObj.hasBody = true)
    (st : ServiceState) (pr : CollisionEntity) (seen : List String)
    (e : GameObject) (f : Nat)
    (hrank : e.hasRank = true) (htd : e.hasTakeDamage = true)
    (hid : ∃ i, e.enemyId = some i ∧ i ≠ "")
    (hact : pr.active = true)
    (hinv : pierceInv N projObj seen st pr) :
    ∃ st2 pr2,
      handleV1 st pr { obj := e, payload := none, active := true } f [] =
        .ok (st2, pr2, { obj := e, payload := none, active := true }) ∧
      pierceInv N projObj (seen ++ [getEnemyIdentifier e]) st2 pr2 := by
  obtain ⟨hobj, p, hpay, hmax, hnodup, hcount, hdmg, hai, hsvc, hpg⟩ := hinv
  obtain ⟨i, hei, hine⟩ := hid
  have hidg : getEnemyIdentifier e = i := getEnemyIdentifier_of_truthy e i hei hine
  have hkey2 : gateKeyV1 pr.obj e = projObj.name ++ ":" ++ getEnemyIdentifier e := by
    rw [hidg, hobj]
    exact gateKeyV1_of_enemyId projObj e i hei
  rw [if_pos hact] at hai
  have hfirst := handleV1_first st pr { obj := e, payload := none, active := true } f []
    (by rw [hobj]; exact hbody) hrank
  by_cases hblocked : mapGet st.frameGate (gateKeyV1 pr.obj e) = some f
  · rw [hkey2] at hblocked
    have hiin : getEnemyIdentifier e ∈ p.hitEnemies := by
      apply hsvc
      rw [hblocked]
      rfl
    refine ⟨st, pr, ?_, ?_⟩
    · rw [hfirst, handleV1Core_blocked st pr _ f [] (by rw [hkey2]; exact hblocked)]
    · refine ⟨hobj, p, hpay, hmax, hnodup, hcount, hdmg, ?_, hsvc, hpg⟩
      rw [if_pos hact]
      exact ⟨hai.1, seen_equiv_extend _ _ _ hai.2 hiin⟩
  · have hcore := handleV1Core_processed_obj st pr e f [] hblocked htd
    rw [hpay, payloadOnHit_pierce] at hcore
    rcases onHitEnemy_spec p e f with ⟨hsome, heq⟩ | ⟨hmem, heq⟩ | ⟨hnmem, heq⟩
    · -- blocked by the projectile's own hit gate: no damage bookkeeping change
      have hiin : getEnemyIdentifier e ∈ p.hitEnemies := hpg _ hsome
      rw [heq] at hcore
      simp only [Bool.not_false, Bool.and_true, List.append_nil] at hcore
      refine ⟨_, _, by rw [hfirst, hcore], ?_⟩
      refine ⟨hobj, p, rfl, hmax, hnodup, hcount,
        dmgLog_extend st.damageLog p.hitEnemies _ 1 hdmg hiin, ?_, ?_, hpg⟩
      · rw [if_pos hact]
        exact ⟨hai.1, seen_equiv_extend _ _ _ hai.2 hiin⟩
      · rw [hkey2]
        exact svcGate_preserved st.frameGate projObj.name _ f p.hitEnemies hsvc hiin
    · -- processed, target already in the hit set: counter unchanged
      have hflag : decide (p.currentPierceCount ≥ p.maxPierceCount) = false := by
        simp only [decide_eq_false_iff_not]
        rw [hmax]
        omega
      rw [heq, hflag] at hcore
      simp only [Bool.not_false, Bool.and_true, List.append_nil] at hcore
      refine ⟨_, _, by rw [hfirst, hcore], ?_⟩
      refine ⟨hobj, { p with hitGate := mapSet p.hitGate (getEnemyIdentifier e) f },
        rfl, hmax, hnodup, hcount,
        dmgLog_extend st.damageLog p.hitEnemies _ 1 hdmg hmem, ?_, ?_, ?_⟩
      · rw [if_pos hact]
        exact ⟨hai.1, seen_equiv_extend _ _ _ hai.2 hmem⟩
      · rw [hkey2]
        exact svcGate_preserved st.frameGate projObj.name _ f p.hitEnemies hsvc hmem
      · exact hitGate_preserved p.hitGate _ f p.hitEnemies hpg hmem
    · -- processed, new target: counted, destroyed when the maximum is reached
      have hnodup2 : (p.hitEnemies ++ [getEnemyIdentifier e]).Nodup := by
        refine List.Nodup.append hnodup (List.nodup_singleton _) ?_
        intro x hx hx2
        rw [List.mem_singleton] at hx2
        rw [hx2] at hx
        exact hnmem hx
      have hcount2 : p.currentPierceCount + 1 =
          (p.hitEnemies ++ [getEnemyIdentifier e]).length := by
        rw [List.length_append, List.length_singleton, hcount]
      have hsvc2 : ∀ i2, (mapGet st.frameGate (projObj.name ++ ":" ++ i2)).isSome = true →
          i2 ∈ p.hitEnemies ++ [getEnemyIdentifier e] :=
        fun i2 h => List.mem_append_left _ (hsvc i2 h)
      have hpg2 : ∀ i2, (mapGet p.hitGate i2).isSome = true →
          i2 ∈ p.hitEnemies ++ [getEnemyIdentifier e] :=
        fun i2 h => List.mem_append_left _ (hpg i2 h)
      have hiin2 : getEnemyIdentifier e ∈ p.hitEnemies ++ [getEnemyIdentifier e] :=
        List.mem_append_right _ (List.mem_singleton_self _)
      by_cases hfull : p.currentPierceCount + 1 ≥ N
      · have hflag : decide (p.currentPierceCount + 1 ≥ p.maxPierceCount) = true := by
          rw [hmax]
          simpa using hfull
        rw [heq, hflag] at hcore
        simp only [Bool.not_true, Bool.and_false, List.append_nil] at hcore
        refine ⟨_, _, by rw [hfirst, hcore], ?_⟩
        refine ⟨hobj, _, rfl, hmax, hnodup2, hcount2,
          dmgLog_extend_new st.damageLog p.hitEnemies _ 1 hdmg, ?_, ?_, ?_⟩
        · simp only [Bool.false_eq_true, if_false]
          constructor
          · show p.currentPierceCount + 1 = N
            omega
          · intro i2 hi2
            rcases List.mem_append.mp hi2 with h1 | h1
            · exact List.mem_append_left _ ((hai.2 i2).mp h1)
            · exact List.mem_append_right _ h1
        · rw [hkey2]
          exact svcGate_preserved st.frameGate projObj.name _ f _ hsvc2 hiin2
        · exact hitGate_preserved p.hitGate _ f _ hpg2 hiin2
      · have hflag : decide (p.currentPierceCount + 1 ≥ p.maxPierceCount) = false := by
          simp only [decide_eq_false_iff_not]
          rw [hmax]
          omega
        rw [heq, hflag] at hcore
        simp only [Bool.not_false, Bool.and_true, List.append_nil] at hcore
        refine ⟨_, _, by rw [hfirst, hcore], ?_⟩
        refine ⟨hobj, _, rfl, hmax, hnodup2, hcount2,
          dmgLog_extend_new st.damageLog p.hitEnemies _ 1 hdmg, ?_, ?_, ?_⟩
        · rw [if_pos hact]
          constructor
          · show p.currentPierceCount + 1 < N
            omega
          · exact seen_equiv_extend_new _ _ _ hai.2
        · rw [hkey2]
          exact svcGate_preserved st.frameGate projObj.name _ f _ hsvc2 hiin2
        · exact hitGate_preserved p.hitGate _ f _ hpg2 hiin2

end Roguelite

namespace Roguelite

theorem runSameProjectile_inv (N : Nat) (projObj : GameObject)
    (hbody : projObj.hasBody = true) :
    ∀ (trace : List (GameObject × Nat)) (st : ServiceState) (pr : CollisionEntity)
      (seen : List String),
      (∀ ef ∈ trace, ef.1.hasRank = true ∧ ef.1.hasTakeDamage = true ∧
        ∃ i, ef.1.enemyId = some i ∧ i ≠ "") →
      pierceInv N projObj seen st pr →
      ∃ st2 pr2, runSameProjectile trace st pr [] = .ok (st2, pr2) ∧
        pierceInv N projObj (seen ++ entIdsOf trace) st2 pr2 := by
  intro trace
  induction trace with
  | nil =>
      intro st pr seen _ hinv
      refine ⟨st, pr, rfl, ?_⟩
      simpa [entIdsOf] using hinv
  | cons ef rest ih =>
      intro st pr seen htr hinv
      obtain ⟨e, f⟩ := ef
      have hef := htr (e, f) (List.mem_cons_self _ _)
      have htr2 : ∀ ef2 ∈ rest, ef2.1.hasRank = true ∧ ef2.1.hasTakeDamage = true ∧
          ∃ i, ef2.1.enemyId = some i ∧ i ≠ "" :=
        fun ef2 h2 => htr ef2 (List.mem_cons_of_mem _ h2)
      have hseen : seen ++ entIdsOf ((e, f) :: rest) =
          (seen ++ [getEnemyIdentifier e]) ++ entIdsOf rest := by
        simp [entIdsOf]
      by_cases hact : pr.active = true
      · obtain ⟨st2, pr2, hh, hinv2⟩ := pierceStep_inv N projObj hbody st pr seen e f
          hef.1 hef.2.1 hef.2.2 hact hinv
        obtain ⟨st3, pr3, hrun, hinv3⟩ :=
          ih st2 pr2 (seen ++ [getEnemyIdentifier e]) htr2 hinv2
        refine ⟨st3, pr3, ?_, ?_⟩
        · rw [runSameProjectile, if_neg (by rw [hact]; exact fun h => nomatch h), hh]
          exact hrun
        · rw [hseen]
          exact hinv3
      · have hactf : pr.active = false := by
          cases hx : pr.active
          · rfl
          · exact absurd hx hact
        have hinv2 := pierceInv_grow N projObj seen st pr (getEnemyIdentifier e)
          hactf hinv
        obtain ⟨st3, pr3, hrun, hinv3⟩ :=
          ih st pr (seen ++ [getEnemyIdentifier e]) htr2 hinv2
        refine ⟨st3, pr3, ?_, ?_⟩
        · rw [runSameProjectile, if_pos hactf]
          exact hrun
        · rw [hseen]
          exact hinv3

end Roguelite

namespace Roguelite

/-- Damage applications recorded against one target id in a run result. -/
def damageCountOf (r : Except String (ServiceState × CollisionEntity))
    (id : String) : Nat :=
  match r with
  | .ok sp => sp.1.damageLog.countP (fun kv => kv.1 == id)
  | .error _ => 0

/-- The pierce counter of the projectile in a run result. -/
def pierceCountOf (r : Except String (ServiceState × CollisionEntity)) : Nat :=
  match r with
  | .ok sp =>
      match sp.2.payload with
      | some (.pierce p) => p.currentPierceCount
      | _ => 0
  | .error _ => 0

/-- The projectile of the C2 scenarios: a named pierce projectile. -/
def pierceCexProjObj : GameObject :=
  { name := "P", enemyId := none, x := 0, y := 0, hasGetDirection := true }

/-- The enemy of the C2 scenarios: a damageable enemy with a stable id. -/
def pierceCexEnemy : GameObject :=
  { name := "", enemyId := some "E1", x := 5, y := 5,
    hasRank := true, hasPursue := true, hasTakeDamage := true }

/-- C2 counterexample: the same enemy reported against the same pierce
projectile in two consecutive frames.  The pierce counter is not incremented
by the re-report (it stays 1), but the enemy is damaged a second time: the
frame gate passes in the new frame and the service applies
`enemy.takeDamage` unconditionally, even though the projectile reported the
hit as a duplicate.  This refutes the claim that a re-reported overlap
against an already-hit target never applies damage to that target again. -/
theorem C2_counterexample :
    damageCountOf (runSameProjectile [(pierceCexEnemy, 1), (pierceCexEnemy, 2)]
      ⟨[], []⟩
      { obj := pierceCexProjObj, payload := some (.pierce (freshPierce 3)),
        active := true } []) "E1" = 2 ∧
    pierceCountOf (runSameProjectile [(pierceCexEnemy, 1), (pierceCexEnemy, 2)]
      ⟨[], []⟩
      { obj := pierceCexProjObj, payload := some (.pierce (freshPierce 3)),
        active := true } []) = 1 := by
  constructor
  · rfl
  · rfl

/-- C2 (amended): over any trace of overlap reports against damageable
targets with stable ids, a pierce projectile with maximum `N ≥ 1` damages
exactly `min N (number of distinct target ids encountered)` distinct
targets; a hit reported for a target id already in the projectile's hit set
never increments the pierce counter; and a re-report of a pair within the
same frame is dropped by the service's frame gate with no state change.
(A re-report in a later frame, however, applies damage again — see the
counterexample.) -/
theorem C2_amended_pierce_accounting (N : Nat) (hN : 1 ≤ N)
    (projObj : GameObject) (hbody : projObj.hasBody = true)
    (trace : List (GameObject × Nat))
    (htr : ∀ ef ∈ trace, ef.1.hasRank = true ∧ ef.1.hasTakeDamage = true ∧
      ∃ i, ef.1.enemyId = some i ∧ i ≠ "") :
    (∃ stF prF,
      runSameProjectile trace ⟨[], []⟩
        { obj := projObj, payload := some (.pierce (freshPierce N)),
          active := true } [] = .ok (stF, prF) ∧
      (stF.damageLog.map Prod.fst).toFinset.card =
        min N (entIdsOf trace).toFinset.card) ∧
    (∀ (p : PierceState) (e2 : GameObject) (f2 : Nat),
      getEnemyIdentifier e2 ∈ p.hitEnemies →
      (p.onHitEnemy e2 f2).1.currentPierceCount = p.currentPierceCount) ∧
    (∀ (st2 : ServiceState) (pr2 en2 : CollisionEntity) (f2 : Nat)
      (world2 : List GameObject),
      mapGet st2.frameGate (gateKeyV1 pr2.obj en2.obj) = some f2 →
      handleV1Core st2 pr2 en2 f2 world2 = .ok (st2, pr2)) := by
  refine ⟨?_, ?_, ?_⟩
  · have hinv0 : pierceInv N projObj [] ⟨[], []⟩
        { obj := projObj, payload := some (.pierce (freshPierce N)),
          active := true } := by
      refine ⟨rfl, freshPierce N, rfl, rfl, List.nodup_nil, rfl, ?_, ?_, ?_, ?_⟩
      · intro i
        constructor
        · rintro ⟨a, ha⟩
          exact absurd ha (List.not_mem_nil _)
        · intro h
          exact absurd h (List.not_mem_nil _)
      · rw [if_pos rfl]
        refine ⟨?_, fun i => Iff.rfl⟩
        show 0 < N
        omega
      · intro i h
        exact Bool.noConfusion h
      · intro i h
        exact Bool.noConfusion h
    obtain ⟨stF, prF, hrun, hinvF⟩ := runSameProjectile_inv N projObj hbody trace
      ⟨[], []⟩ _ [] htr hinv0
    obtain ⟨hobjF, p, hpayF, hmaxF, hnodupF, hcountF, hdmgF, haiF, h1F, h2F⟩ := hinvF
    refine ⟨stF, prF, hrun, ?_⟩
    have hfs : (stF.damageLog.map Prod.fst).toFinset = p.hitEnemies.toFinset := by
      ext x
      simp only [List.mem_toFinset, List.mem_map]
      constructor
      · rintro ⟨kv, hkv, rfl⟩
        exact (hdmgF kv.1).mp ⟨kv.2, hkv⟩
      · intro hx
        obtain ⟨a, ha⟩ := (hdmgF x).mpr hx
        exact ⟨(x, a), ha, rfl⟩
    rw [hfs, List.toFinset_card_of_nodup hnodupF]
    by_cases hactF : prF.active = true
    · rw [if_pos hactF] at haiF
      simp only [List.nil_append] at haiF
      have hset : p.hitEnemies.toFinset = (entIdsOf trace).toFinset := by
        ext x
        simp only [List.mem_toFinset]
        exact haiF.2 x
      have hcard : p.hitEnemies.length = (entIdsOf trace).toFinset.card := by
        rw [← hset, List.toFinset_card_of_nodup hnodupF]
      rw [← hcard]
      have hlt : p.hitEnemies.length < N := by
        rw [← hcountF]
        exact haiF.1
      omega
    · rw [if_neg hactF] at haiF
      simp only [List.nil_append] at haiF
      have hsub : p.hitEnemies.toFinset ⊆ (entIdsOf trace).toFinset := by
        intro x hx
        rw [List.mem_toFinset] at hx ⊢
        exact haiF.2 x hx
      have hle := Finset.card_le_card hsub
      rw [List.toFinset_card_of_nodup hnodupF] at hle
      have hlen : p.hitEnemies.length = N := by
        rw [← hcountF]
        exact haiF.1
      omega
  · intro p e2 f2 hmem
    rcases onHitEnemy_spec p e2 f2 with ⟨_, heq⟩ | ⟨_, heq⟩ | ⟨hnm, heq⟩
    · rw [heq]
    · rw [heq]
    · exact absurd hmem hnm
  · intro st2 pr2 en2 f2 world2 hsome
    exact handleV1Core_blocked st2 pr2 en2 f2 world2 hsome

/-- Witness for the amended C2 on a one-report trace. -/
theorem C2_amended_pierce_accounting_witness :
    (∃ stF prF,
      runSameProjectile [(pierceCexEnemy, 1)] ⟨[], []⟩
        { obj := pierceCexProjObj, payload := some (.pierce (freshPierce 3)),
          active := true } [] = .ok (stF, prF) ∧
      (stF.damageLog.map Prod.fst).toFinset.card =
        min 3 (entIdsOf [(pierceCexEnemy, 1)]).toFinset.card) ∧
    (∀ (p : PierceState) (e2 : GameObject) (f2 : Nat),
      getEnemyIdentifier e2 ∈ p.hitEnemies →
      (p.onHitEnemy e2 f2).1.currentPierceCount = p.currentPierceCount) ∧
    (∀ (st2 : ServiceState) (pr2 en2 : CollisionEntity) (f2 : Nat)
      (world2 : List GameObject),
      mapGet st2.frameGate (gateKeyV1 pr2.obj en2.obj) = some f2 →
      handleV1Core st2 pr2 en2 f2 world2 = .ok (st2, pr2)) :=
  C2_amended_pierce_accounting 3 (by omega) pierceCexProjObj rfl
    [(pierceCexEnemy, 1)]
    (by
      intro ef hef
      rw [List.mem_singleton] at hef
      subst hef
      exact ⟨rfl, rfl, "E1", rfl, by decide⟩)

end Roguelite
